import Mathlib

/-!
Verification of the view-aggregation core of the LevelUpLife data layer
(`leveluplife/controllers/user.py`), shallowly embedded in Lean 4.

The embedding follows the Python source directly:
* SQLModel rows become Lean structures; UUIDs become `Nat`; nullable join
  columns become `Option`.
* Python dicts (which preserve insertion order) become association lists on
  which `insertIfAbsent` appends at the end, exactly like `d[k] = v` on a
  fresh key.
* The database session becomes an explicit `DB` record; operations that
  mutate it return the new `DB` next to their result, and Python exceptions
  become an `Except UserError` result.
-/

set_option maxHeartbeats 1000000

namespace LevelUpLife

/-- The `Tribe` enum. The enum type itself lives outside the covered source
file; the controller compares against the four members below and treats every
other value alike (its trailing `else` branch), so any further member is
represented by `OTHER`. -/
inductive Tribe where
  | NOSFERATI
  | VALHARS
  | SAHARANS
  | GLIMMERKINS
  | OTHER
deriving DecidableEq, Repr, Fintype

/-- The five numeric attributes returned by `calculate_initial_stats`
(a `dict[str, int]` in the source, hence `Int` values). -/
structure Stats where
  intelligence : Int
  strength : Int
  agility : Int
  wise : Int
  psycho : Int
deriving DecidableEq, Repr

structure Task where
  id : Nat
  user_id : Nat
  name : String
deriving DecidableEq, Repr

structure Rating where
  id : Nat
  user_id : Nat
  name : String
deriving DecidableEq, Repr

structure Comment where
  id : Nat
  user_id : Nat
  name : String
deriving DecidableEq, Repr

structure Reaction where
  id : Nat
  user_id : Nat
  name : String
deriving DecidableEq, Repr

structure Item where
  id : Nat
  name : String
deriving DecidableEq, Repr

structure Quest where
  id : Nat
  name : String
deriving DecidableEq, Repr

structure UserItemLink where
  user_id : Nat
  item_id : Nat
  equipped : Bool
deriving DecidableEq, Repr

structure UserQuestLink where
  user_id : Nat
  quest_id : Nat
  quest_start : Nat
  quest_end : Option Nat
  status : String
deriving DecidableEq, Repr

/-- The `User` table row.  The four trailing lists are the ORM relationship
collections (`user.tasks`, ...) that `_construct_user_view` reads directly;
`model_dump` on a table row exports only the column fields, so the view
constructors never copy these lists implicitly. -/
structure User where
  id : Nat
  username : String
  email : String
  tribe : Tribe
  password : String
  intelligence : Int
  strength : Int
  agility : Int
  wise : Int
  psycho : Int
  tasks : List Task
  ratings : List Rating
  comments : List Comment
  reactions : List Reaction
deriving DecidableEq, Repr

structure TaskView where
  id : Nat
  user_id : Nat
  name : String
deriving DecidableEq, Repr

structure RatingView where
  id : Nat
  user_id : Nat
  name : String
deriving DecidableEq, Repr

structure CommentView where
  id : Nat
  user_id : Nat
  name : String
deriving DecidableEq, Repr

structure ReactionView where
  id : Nat
  user_id : Nat
  name : String
deriving DecidableEq, Repr

structure ItemUserView where
  id : Nat
  name : String
  equipped : Bool
deriving DecidableEq, Repr

/-- `QuestUserView`: the single-entity path passes `user_id=user.id`, the
batch path does not pass it at all, so the field is optional here. -/
structure QuestUserView where
  id : Nat
  name : String
  user_id : Option Nat
  quest_start : Nat
  quest_end : Option Nat
  status : String
deriving DecidableEq, Repr

/-- `UserView`: all public user columns (everything except `password`) plus
the six child collections. -/
structure UserView where
  id : Nat
  username : String
  email : String
  tribe : Tribe
  intelligence : Int
  strength : Int
  agility : Int
  wise : Int
  psycho : Int
  items : List ItemUserView
  tasks : List TaskView
  ratings : List RatingView
  comments : List CommentView
  reactions : List ReactionView
  quests : List QuestUserView
deriving DecidableEq, Repr

/-- `UserController.calculate_initial_stats` (user.py lines 62-103). -/
def calculate_initial_stats (tribe : Tribe) : Stats :=
  if tribe = Tribe.NOSFERATI then
    { intelligence := 8, strength := 2, agility := 2, wise := 1, psycho := 10 }
  else if tribe = Tribe.VALHARS then
    { intelligence := 1, strength := 10, agility := 6, wise := 6, psycho := 2 }
  else if tribe = Tribe.SAHARANS then
    { intelligence := 9, strength := 2, agility := 3, wise := 10, psycho := 1 }
  else if tribe = Tribe.GLIMMERKINS then
    { intelligence := 10, strength := 2, agility := 2, wise := 7, psycho := 4 }
  else
    { intelligence := 5, strength := 5, agility := 5, wise := 5, psycho := 5 }

/-- One joined row of the items+quests join used by the single-entity
fetches: `(User, UserItemLink, Item, UserQuestLink, Quest)`. -/
structure SingleRow where
  user : User
  user_item_link : Option UserItemLink
  item : Option Item
  user_quest_link : Option UserQuestLink
  quest : Option Quest
deriving DecidableEq, Repr

/-- One joined row of the full six-relation join used by the batch fetches:
`(User, UserItemLink, Item, Task, Rating, Comment, Reaction, UserQuestLink,
Quest)`. -/
structure BatchRow where
  user : User
  user_item_link : Option UserItemLink
  item : Option Item
  task : Option Task
  rating : Option Rating
  comment : Option Comment
  reaction : Option Reaction
  user_quest_link : Option UserQuestLink
  quest : Option Quest
deriving DecidableEq, Repr

/-- `UserController._construct_user_view` (user.py lines 286-340).
Returns `none` on an empty input, where the Python indexes `[0]` and raises.
The item comprehension guards on `if item` only and then reads
`user_item_link.equipped`; a row with an item but no link would raise in
Python and cannot be produced by the source's joins (the item is only
reachable through the link), so such rows yield no entry here, and
symmetrically for quests. -/
def construct_user_view : List SingleRow → Option UserView
  | [] => none
  | r0 :: rest =>
    let rows := r0 :: rest
    let user := r0.user
    some {
      id := user.id
      username := user.username
      email := user.email
      tribe := user.tribe
      intelligence := user.intelligence
      strength := user.strength
      agility := user.agility
      wise := user.wise
      psycho := user.psycho
      items := rows.filterMap (fun r =>
        match r.user_item_link, r.item with
        | some l, some it => some { id := it.id, name := it.name, equipped := l.equipped }
        | _, _ => none)
      quests := rows.filterMap (fun r =>
        match r.user_quest_link, r.quest with
        | some ql, some q =>
          some { id := q.id, name := q.name, user_id := some user.id,
                 quest_start := ql.quest_start, quest_end := ql.quest_end,
                 status := ql.status }
        | _, _ => none)
      tasks := user.tasks.map (fun t => { id := t.id, user_id := t.user_id, name := t.name })
      ratings := user.ratings.map (fun t => { id := t.id, user_id := t.user_id, name := t.name })
      comments := user.comments.map (fun t => { id := t.id, user_id := t.user_id, name := t.name })
      reactions := user.reactions.map (fun t => { id := t.id, user_id := t.user_id, name := t.name }) }

/-- Insertion-ordered association list membership test (`k in d`). -/
def hasKey {κ α : Type} [DecidableEq κ] (m : List (κ × α)) (k : κ) : Bool :=
  m.any (fun e => e.1 = k)

/-- `d[k] = v` on a dict when `k not in d`: append at the end, keep the dict
unchanged otherwise (the source always guards the write by `not in`). -/
def insertIfAbsent {κ α : Type} [DecidableEq κ] (m : List (κ × α)) (k : κ) (v : α) :
    List (κ × α) :=
  if hasKey m k then m else m ++ [(k, v)]

/-- In-place update of the value stored at a key, preserving entry order. -/
def updateAt {κ α : Type} [DecidableEq κ] (m : List (κ × α)) (k : κ) (f : α → α) :
    List (κ × α) :=
  m.map (fun e => if e.1 = k then (e.1, f e.2) else e)

/-- The per-person accumulator of `_construct_user_views`: the first-seen
user row plus the six insertion-ordered deduplicating collections. -/
structure UserAcc where
  user : User
  items : List ((Nat × Nat) × ItemUserView)
  tasks : List (Nat × TaskView)
  ratings : List (Nat × RatingView)
  comments : List (Nat × CommentView)
  reactions : List (Nat × ReactionView)
  quests : List ((Nat × Nat) × QuestUserView)
deriving DecidableEq, Repr

def emptyAcc (u : User) : UserAcc :=
  { user := u, items := [], tasks := [], ratings := [], comments := [],
    reactions := [], quests := [] }

/-- `if user_item_link and item:` branch of the batch loop. -/
def addItemEntry (r : BatchRow) (a : UserAcc) : UserAcc :=
  match r.user_item_link, r.item with
  | some l, some it =>
    let v : ItemUserView := { id := it.id, name := it.name, equipped := l.equipped }
    { a with items := insertIfAbsent a.items (it.id, r.user.id) v }
  | _, _ => a

/-- `if task:` branch of the batch loop. -/
def addTaskEntry (r : BatchRow) (a : UserAcc) : UserAcc :=
  match r.task with
  | some t =>
    let v : TaskView := { id := t.id, user_id := t.user_id, name := t.name }
    { a with tasks := insertIfAbsent a.tasks t.id v }
  | none => a

/-- `if rating:` branch of the batch loop. -/
def addRatingEntry (r : BatchRow) (a : UserAcc) : UserAcc :=
  match r.rating with
  | some t =>
    let v : RatingView := { id := t.id, user_id := t.user_id, name := t.name }
    { a with ratings := insertIfAbsent a.ratings t.id v }
  | none => a

/-- `if comment:` branch of the batch loop. -/
def addCommentEntry (r : BatchRow) (a : UserAcc) : UserAcc :=
  match r.comment with
  | some t =>
    let v : CommentView := { id := t.id, user_id := t.user_id, name := t.name }
    { a with comments := insertIfAbsent a.comments t.id v }
  | none => a

/-- `if reaction:` branch of the batch loop. -/
def addReactionEntry (r : BatchRow) (a : UserAcc) : UserAcc :=
  match r.reaction with
  | some t =>
    let v : ReactionView := { id := t.id, user_id := t.user_id, name := t.name }
    { a with reactions := insertIfAbsent a.reactions t.id v }
  | none => a

/-- `if user_quest_link and quest:` branch of the batch loop. -/
def addQuestEntry (r : BatchRow) (a : UserAcc) : UserAcc :=
  match r.user_quest_link, r.quest with
  | some ql, some q =>
    let v : QuestUserView :=
      { id := q.id, name := q.name, user_id := none,
        quest_start := ql.quest_start, quest_end := ql.quest_end, status := ql.status }
    { a with quests := insertIfAbsent a.quests (q.id, r.user.id) v }
  | _, _ => a

/-- The six per-kind updates of one loop iteration, in source order. -/
def accAddRow (a : UserAcc) (r : BatchRow) : UserAcc :=
  addQuestEntry r (addReactionEntry r (addCommentEntry r (addRatingEntry r
    (addTaskEntry r (addItemEntry r a)))))

/-- One iteration of the `for ... in user_with_items_and_quests` loop of
`_construct_user_views`: create the accumulator on first sight of the user
id, then apply the six per-kind updates. -/
def processRow (m : List (Nat × UserAcc)) (r : BatchRow) : List (Nat × UserAcc) :=
  updateAt (if hasKey m r.user.id then m else m ++ [(r.user.id, emptyAcc r.user)])
    r.user.id (fun a => accAddRow a r)

/-- The final `UserView(...)` construction from one accumulator: public user
columns plus the `.values()` of each dedup dict. -/
def viewOfAcc (a : UserAcc) : UserView :=
  { id := a.user.id
    username := a.user.username
    email := a.user.email
    tribe := a.user.tribe
    intelligence := a.user.intelligence
    strength := a.user.strength
    agility := a.user.agility
    wise := a.user.wise
    psycho := a.user.psycho
    items := a.items.map (fun e => e.2)
    tasks := a.tasks.map (fun e => e.2)
    ratings := a.ratings.map (fun e => e.2)
    comments := a.comments.map (fun e => e.2)
    reactions := a.reactions.map (fun e => e.2)
    quests := a.quests.map (fun e => e.2) }

/-- `UserController._construct_user_views` (user.py lines 342-416). -/
def construct_user_views (rows : List BatchRow) : List UserView :=
  (rows.foldl processRow []).map (fun e => viewOfAcc e.2)

/-- Spec-side definition (§8 "Ordering"): the first occurrence of each
element of a list, in order of first appearance. -/
def firstAppearanceOrder {κ : Type} [DecidableEq κ] (l : List κ) : List κ :=
  l.foldl (fun acc x => if acc.any (fun y => y = x) then acc else acc ++ [x]) []

/-- Spec-side definition: the stream of item dedup keys among one person's
tuples — the item id of every tuple of person `p` whose link and item are
both non-null, in input order. -/
def specItemKeys (rows : List BatchRow) (p : Nat) : List Nat :=
  rows.filterMap (fun r =>
    if r.user.id = p then
      match r.user_item_link, r.item with
      | some _, some it => some it.id
      | _, _ => none
    else none)

/-- Spec-side definition: the stream of task dedup keys among one person's
tuples. -/
def specTaskKeys (rows : List BatchRow) (p : Nat) : List Nat :=
  rows.filterMap (fun r => if r.user.id = p then r.task.map (fun t => t.id) else none)

/-- Spec-side definition: the stream of rating dedup keys among one person's
tuples. -/
def specRatingKeys (rows : List BatchRow) (p : Nat) : List Nat :=
  rows.filterMap (fun r => if r.user.id = p then r.rating.map (fun t => t.id) else none)

/-- Spec-side definition: the stream of comment dedup keys among one
person's tuples. -/
def specCommentKeys (rows : List BatchRow) (p : Nat) : List Nat :=
  rows.filterMap (fun r => if r.user.id = p then r.comment.map (fun t => t.id) else none)

/-- Spec-side definition: the stream of reaction dedup keys among one
person's tuples. -/
def specReactionKeys (rows : List BatchRow) (p : Nat) : List Nat :=
  rows.filterMap (fun r => if r.user.id = p then r.reaction.map (fun t => t.id) else none)

/-- Spec-side definition: the stream of quest dedup keys among one person's
tuples. -/
def specQuestKeys (rows : List BatchRow) (p : Nat) : List Nat :=
  rows.filterMap (fun r =>
    if r.user.id = p then
      match r.user_quest_link, r.quest with
      | some _, some q => some q.id
      | _, _ => none
    else none)

/-- The ids of the item entries `_construct_user_view` emits, in order: one
per input tuple whose link and item are both non-null. -/
def singleItemIds (rows : List SingleRow) : List Nat :=
  rows.filterMap (fun r =>
    match r.user_item_link, r.item with
    | some _, some it => some it.id
    | _, _ => none)

/-- The ids of the quest entries `_construct_user_view` emits, in order. -/
def singleQuestIds (rows : List SingleRow) : List Nat :=
  rows.filterMap (fun r =>
    match r.user_quest_link, r.quest with
    | some _, some q => some q.id
    | _, _ => none)

/-- `{u with password := s}`: the user record with its credential replaced. -/
def withPassword (s : String) (u : User) : User :=
  { u with password := s }

/-- A batch join row with its person's credential replaced. -/
def pwBatchRow (s : String) (r : BatchRow) : BatchRow :=
  { r with user := withPassword s r.user }

/-- A single-entity join row with its person's credential replaced. -/
def pwSingleRow (s : String) (r : SingleRow) : SingleRow :=
  { r with user := withPassword s r.user }

/-- The database state visible to the controller: one list per table.  The
session of the source becomes this explicit record. -/
structure DB where
  users : List User
  user_item_links : List UserItemLink
  items : List Item
  user_quest_links : List UserQuestLink
  quests : List Quest
  tasks : List Task
  ratings : List Rating
  comments : List Comment
  reactions : List Reaction
deriving DecidableEq, Repr

/-- The error kinds the controller can surface: the repository's error
types plus the SQLAlchemy exceptions that escape uncaught
(`NoResultFound` / `MultipleResultsFound` from `.one()`, `IndexError` from
`[0]` on an empty row list). -/
inductive UserError where
  | userEmailAlreadyExists (email : String)
  | userUsernameAlreadyExists (username : String)
  | userNotFound (user_id : Nat)
  | userUsernameNotFound (username : String)
  | userEmailNotFound (email : String)
  | itemLinkToUserNotFound (item_id : Nat)
  | noResultFound
  | multipleResultsFound
  | indexError
deriving DecidableEq, Repr

/-- The two left outer joins `UserItemLink ON User.id == UserItemLink.user_id`
then `Item ON UserItemLink.item_id == Item.id`, restricted to one user row:
a user with no links yields the single padding pair `(none, none)`; a link
whose item id matches no item row is padded with `none` on the item side. -/
def linkItemPairs (db : DB) (u : User) : List (Option UserItemLink × Option Item) :=
  match db.user_item_links.filter (fun l => l.user_id = u.id) with
  | [] => [(none, none)]
  | ls => ls.bind (fun l =>
      match db.items.filter (fun it => it.id = l.item_id) with
      | [] => [(some l, none)]
      | its => its.map (fun it => (some l, some it)))

/-- The two left outer joins on `UserQuestLink` and `Quest`, restricted to one
user row. -/
def questLinkPairs (db : DB) (u : User) : List (Option UserQuestLink × Option Quest) :=
  match db.user_quest_links.filter (fun l => l.user_id = u.id) with
  | [] => [(none, none)]
  | ls => ls.bind (fun l =>
      match db.quests.filter (fun q => q.id = l.quest_id) with
      | [] => [(some l, none)]
      | qs => qs.map (fun q => (some l, some q)))

/-- All rows of the items+quests join that carry the given user. -/
def joined_rows_single (db : DB) (u : User) : List SingleRow :=
  (linkItemPairs db u).bind (fun li =>
    (questLinkPairs db u).map (fun qp =>
      { user := u, user_item_link := li.1, item := li.2,
        user_quest_link := qp.1, quest := qp.2 }))

/-- The items+quests join filtered by a predicate on the user (`WHERE` applies
to user columns only in every caller). -/
def single_join (db : DB) (pred : User → Bool) : List SingleRow :=
  (db.users.filter pred).bind (joined_rows_single db)

/-- Left outer join of the `Task` table against one user row. -/
def taskOpts (db : DB) (u : User) : List (Option Task) :=
  match db.tasks.filter (fun t => t.user_id = u.id) with
  | [] => [none]
  | ts => ts.map some

/-- Left outer join of the `Rating` table against one user row. -/
def ratingOpts (db : DB) (u : User) : List (Option Rating) :=
  match db.ratings.filter (fun t => t.user_id = u.id) with
  | [] => [none]
  | ts => ts.map some

/-- Left outer join of the `Comment` table against one user row. -/
def commentOpts (db : DB) (u : User) : List (Option Comment) :=
  match db.comments.filter (fun t => t.user_id = u.id) with
  | [] => [none]
  | ts => ts.map some

/-- Left outer join of the `Reaction` table against one user row. -/
def reactionOpts (db : DB) (u : User) : List (Option Reaction) :=
  match db.reactions.filter (fun t => t.user_id = u.id) with
  | [] => [none]
  | ts => ts.map some

/-- All rows of the full six-relation join that carry the given user: the
cartesian product of the six outer-joined relations, in the join order of the
source query. -/
def joined_rows_batch (db : DB) (u : User) : List BatchRow :=
  (linkItemPairs db u).bind (fun li =>
    (taskOpts db u).bind (fun t =>
      (ratingOpts db u).bind (fun ra =>
        (commentOpts db u).bind (fun c =>
          (reactionOpts db u).bind (fun re =>
            (questLinkPairs db u).map (fun qp =>
              { user := u, user_item_link := li.1, item := li.2, task := t,
                rating := ra, comment := c, reaction := re,
                user_quest_link := qp.1, quest := qp.2 }))))))

/-- The full six-relation join filtered by a predicate on the user. -/
def batch_join (db : DB) (pred : User → Bool) : List BatchRow :=
  (db.users.filter pred).bind (joined_rows_batch db)

/-- Lexicographic order on strings by character, the collation `ORDER BY`
uses (equivalent to the codepoint order for the usernames involved). -/
def strLeB : List Char → List Char → Bool
  | [], _ => true
  | _ :: _, [] => false
  | c :: cs, d :: ds => if c < d then true else if d < c then false else strLeB cs ds

/-- `ORDER BY User.username` on the joined rows (insertion sort, ascending,
stable). -/
def insertByUsername (r : BatchRow) : List BatchRow → List BatchRow
  | [] => [r]
  | x :: xs =>
    if strLeB r.user.username.data x.user.username.data then r :: x :: xs
    else x :: insertByUsername r xs

/-- Sort the joined rows by username, ascending. -/
def order_by_username (rows : List BatchRow) : List BatchRow :=
  rows.foldr insertByUsername []

/-- The flat row window `get_users` consumes: `OFFSET offset LIMIT limit`
applied to the username-ordered joined rows, before any aggregation. -/
def page_rows (db : DB) (offset limit : Nat) : List BatchRow :=
  ((order_by_username (batch_join db (fun _ => true))).drop offset).take limit

/-- `UserController.get_users` (user.py lines 105-131). -/
def get_users (db : DB) (offset limit : Nat) : List UserView :=
  construct_user_views (page_rows db offset limit)

/-- `UserController.get_user_by_id` (user.py lines 271-284). -/
def get_user_by_id (db : DB) (user_id : Nat) : Except UserError UserView :=
  let rows := single_join db (fun u => u.id = user_id)
  if rows.isEmpty then .error (.userNotFound user_id)
  else
    match construct_user_view rows with
    | some v => .ok v
    | none => .error .indexError

/-- `UserController.get_user_by_username` (user.py lines 133-145). -/
def get_user_by_username (db : DB) (user_username : String) : Except UserError UserView :=
  let rows := single_join db (fun u => u.username = user_username)
  if rows.isEmpty then .error (.userUsernameNotFound user_username)
  else
    match construct_user_view rows with
    | some v => .ok v
    | none => .error .indexError

/-- `UserController.get_user_by_email` (user.py lines 152-164). -/
def get_user_by_email (db : DB) (user_email : String) : Except UserError UserView :=
  let rows := single_join db (fun u => u.email = user_email)
  if rows.isEmpty then .error (.userEmailNotFound user_email)
  else
    match construct_user_view rows with
    | some v => .ok v
    | none => .error .indexError

/-- `UserController.get_user_by_username_with_password` (user.py lines
147-150): a bare `.one()` on the `User` table, so an absent username escapes
as SQLAlchemy `NoResultFound` and a duplicated one as
`MultipleResultsFound`; neither is converted to a repository error. -/
def get_user_by_username_with_password (db : DB) (user_username : String) :
    Except UserError User :=
  match db.users.filter (fun u => u.username = user_username) with
  | [] => .error .noResultFound
  | [u] => .ok u
  | _ :: _ :: _ => .error .multipleResultsFound

/-- `UserController.equip_item_to_user` (user.py lines 247-269): `.one()` on
the user, `.one()` on the `(user_id, item_id)` link, flip the link's
`equipped` flag, commit, then return `get_user_by_id` on the new state. -/
def equip_item_to_user (db : DB) (user_id item_id : Nat) (equipped : Bool) :
    Except UserError (DB × UserView) :=
  match db.users.filter (fun u => u.id = user_id) with
  | [] => .error (.userNotFound user_id)
  | _ :: _ :: _ => .error .multipleResultsFound
  | [_] =>
    match db.user_item_links.filter (fun l => l.user_id = user_id ∧ l.item_id = item_id) with
    | [] => .error (.itemLinkToUserNotFound item_id)
    | _ :: _ :: _ => .error .multipleResultsFound
    | [_] =>
      let db2 : DB :=
        { db with user_item_links := db.user_item_links.map (fun l =>
            if l.user_id = user_id ∧ l.item_id = item_id then { l with equipped := equipped }
            else l) }
      match get_user_by_id db2 user_id with
      | .ok v => .ok (db2, v)
      | .error e => .error e

/-- `UserController.update_user_password` (user.py lines 227-245): `.one()`
on the user id, assign the new password verbatim, commit, re-query the
items+quests join and rebuild the view. -/
def update_user_password (db : DB) (user_id : Nat) (password : String) :
    Except UserError (DB × UserView) :=
  match db.users.filter (fun u => u.id = user_id) with
  | [] => .error (.userNotFound user_id)
  | _ :: _ :: _ => .error .multipleResultsFound
  | [_] =>
    let db2 : DB :=
      { db with users := db.users.map (fun u =>
          if u.id = user_id then { u with password := password } else u) }
    match construct_user_view (single_join db2 (fun u => u.id = user_id)) with
    | some v => .ok (db2, v)
    | none => .error .indexError

/-- The request body of `create_user`. -/
structure UserCreate where
  username : String
  email : String
  password : String
  tribe : Tribe
deriving DecidableEq, Repr

/-- What the external storage reports for `session.commit()` on the insert:
success, or an `IntegrityError` for a violated constraint.  The constraint
machinery itself is outside the covered source (spec §6 lists the
uniqueness-violation signal as an external storage interface), so the
outcome is an input here. -/
inductive CommitOutcome where
  | ok
  | integrityError
deriving DecidableEq, Repr

/-- `UserController.create_user` (user.py lines 33-60).  `hash` is the
external `get_password_hash`, `new_id` the freshly generated UUID; both are
external collaborators passed as arguments.  On `IntegrityError` the source
rolls back and re-queries by email then by username; if neither re-query
finds a row it falls off the end of the handler and returns `None`. -/
def create_user (hash : String → String) (new_id : Nat) (commit : CommitOutcome)
    (db : DB) (uc : UserCreate) : Except UserError (Option User × DB) :=
  let stats := calculate_initial_stats uc.tribe
  let new_user : User :=
    { id := new_id, username := uc.username, email := uc.email, tribe := uc.tribe,
      password := hash uc.password,
      intelligence := stats.intelligence, strength := stats.strength,
      agility := stats.agility, wise := stats.wise, psycho := stats.psycho,
      tasks := [], ratings := [], comments := [], reactions := [] }
  match commit with
  | .ok => .ok (some new_user, { db with users := db.users ++ [new_user] })
  | .integrityError =>
    match db.users.filter (fun u => u.email = uc.email) with
    | _ :: _ => .error (.userEmailAlreadyExists uc.email)
    | [] =>
      match db.users.filter (fun u => u.username = uc.username) with
      | _ :: _ => .error (.userUsernameAlreadyExists uc.username)
      | [] => .ok (none, db)

/-- Fold a stream of key-value events into a dedup dict, oldest first. -/
def insertStream {κ α : Type} [DecidableEq κ] (m : List (κ × α)) (evs : List (κ × α)) :
    List (κ × α) :=
  evs.foldl (fun m e => insertIfAbsent m e.1 e.2) m

/-- First value stored under a key (`d[k]` on a dict with unique keys). -/
def lookupKey {κ α : Type} [DecidableEq κ] : List (κ × α) → κ → Option α
  | [], _ => none
  | e :: rest, k => if e.1 = k then some e.2 else lookupKey rest k

/-- The accumulator `_construct_user_views` ends up holding for one person,
applied to that person's subsequence of input tuples. -/
def accOfRows : List BatchRow → Option UserAcc
  | [] => none
  | r :: rs => some ((r :: rs).foldl accAddRow (emptyAcc r.user))

/-- `firstAppearanceOrder` with an explicit starting accumulator. -/
def faoFold {κ : Type} [DecidableEq κ] (acc : List κ) (l : List κ) : List κ :=
  l.foldl (fun acc x => if acc.any (fun y => y = x) then acc else acc ++ [x]) acc

/-- The item dict event one batch row contributes: the dedup key
`(item.id, user.id)` with its `ItemUserView`, or nothing. -/
def itemEventsOf (r : BatchRow) : List ((Nat × Nat) × ItemUserView) :=
  match r.user_item_link, r.item with
  | some l, some it => [((it.id, r.user.id), { id := it.id, name := it.name, equipped := l.equipped })]
  | _, _ => []

/-- The task dict event one batch row contributes. -/
def taskEventsOf (r : BatchRow) : List (Nat × TaskView) :=
  match r.task with
  | some t => [(t.id, { id := t.id, user_id := t.user_id, name := t.name })]
  | none => []

/-- The rating dict event one batch row contributes. -/
def ratingEventsOf (r : BatchRow) : List (Nat × RatingView) :=
  match r.rating with
  | some t => [(t.id, { id := t.id, user_id := t.user_id, name := t.name })]
  | none => []

/-- The comment dict event one batch row contributes. -/
def commentEventsOf (r : BatchRow) : List (Nat × CommentView) :=
  match r.comment with
  | some t => [(t.id, { id := t.id, user_id := t.user_id, name := t.name })]
  | none => []

/-- The reaction dict event one batch row contributes. -/
def reactionEventsOf (r : BatchRow) : List (Nat × ReactionView) :=
  match r.reaction with
  | some t => [(t.id, { id := t.id, user_id := t.user_id, name := t.name })]
  | none => []

/-- The quest dict event one batch row contributes. -/
def questEventsOf (r : BatchRow) : List ((Nat × Nat) × QuestUserView) :=
  match r.user_quest_link, r.quest with
  | some ql, some q =>
    [((q.id, r.user.id),
      { id := q.id, name := q.name, user_id := none,
        quest_start := ql.quest_start, quest_end := ql.quest_end, status := ql.status })]
  | _, _ => []

/-- An accumulator with its stored person's credential replaced. -/
def pwAcc (s : String) (a : UserAcc) : UserAcc :=
  { a with user := withPassword s a.user }

/-- A plain user record used by the concrete instances below. -/
def mkUser (i : Nat) (n e : String) : User :=
  { id := i, username := n, email := e, tribe := .OTHER, password := "secret",
    intelligence := 5, strength := 5, agility := 5, wise := 5, psycho := 5,
    tasks := [], ratings := [], comments := [], reactions := [] }

/-- An empty database. -/
def emptyDB : DB :=
  { users := [], user_item_links := [], items := [], user_quest_links := [],
    quests := [], tasks := [], ratings := [], comments := [], reactions := [] }

/-- Single-entity join rows showing join explosion: one person, one item,
two quests, so the item row repeats. -/
def c2Rows : List SingleRow :=
  [ { user := mkUser 1 "a" "a@x", user_item_link := some ⟨1, 7, true⟩,
      item := some ⟨7, "sword"⟩, user_quest_link := some ⟨1, 3, 0, none, "open"⟩,
      quest := some ⟨3, "q3"⟩ },
    { user := mkUser 1 "a" "a@x", user_item_link := some ⟨1, 7, true⟩,
      item := some ⟨7, "sword"⟩, user_quest_link := some ⟨1, 4, 0, none, "open"⟩,
      quest := some ⟨4, "q4"⟩ } ]

/-- Single-entity join rows with two distinct items and no quests. -/
def c2wRows : List SingleRow :=
  [ { user := mkUser 1 "a" "a@x", user_item_link := some ⟨1, 7, true⟩,
      item := some ⟨7, "sword"⟩, user_quest_link := none, quest := none },
    { user := mkUser 1 "a" "a@x", user_item_link := some ⟨1, 8, true⟩,
      item := some ⟨8, "shield"⟩, user_quest_link := none, quest := none } ]

/-- The view `construct_user_view c2wRows` yields. -/
def c2wView : UserView :=
  { id := 1, username := "a", email := "a@x", tribe := .OTHER,
    intelligence := 5, strength := 5, agility := 5, wise := 5, psycho := 5,
    items := [⟨7, "sword", true⟩, ⟨8, "shield", true⟩],
    tasks := [], ratings := [], comments := [], reactions := [], quests := [] }

/-- Batch join rows repeating the pair (person 1, item 7) across two tasks. -/
def c1Rows : List BatchRow :=
  [ { user := mkUser 1 "a" "a@x", user_item_link := some ⟨1, 7, true⟩,
      item := some ⟨7, "sword"⟩, task := some ⟨21, 1, "t21"⟩, rating := none,
      comment := none, reaction := none, user_quest_link := none, quest := none },
    { user := mkUser 1 "a" "a@x", user_item_link := some ⟨1, 7, true⟩,
      item := some ⟨7, "sword"⟩, task := some ⟨22, 1, "t22"⟩, rating := none,
      comment := none, reaction := none, user_quest_link := none, quest := none },
    { user := mkUser 2 "b" "b@x", user_item_link := some ⟨2, 7, false⟩,
      item := some ⟨7, "sword"⟩, task := none, rating := none,
      comment := none, reaction := none, user_quest_link := none, quest := none } ]

/-- A database with person 1 and no possession links. -/
def dbA : DB :=
  { emptyDB with users := [mkUser 1 "a" "a@x"] }

/-- A database with person 1 possessing items 2 and 3, item 2 unequipped. -/
def dbB : DB :=
  { emptyDB with
      users := [mkUser 1 "a" "a@x"],
      user_item_links := [⟨1, 2, false⟩, ⟨1, 3, false⟩],
      items := [⟨2, "sword"⟩, ⟨3, "shield"⟩] }

/-- A database with one person owning two items (two join rows). -/
def dbC : DB :=
  { emptyDB with
      users := [mkUser 1 "a" "a@x"],
      user_item_links := [⟨1, 7, false⟩, ⟨1, 8, false⟩],
      items := [⟨7, "sword"⟩, ⟨8, "shield"⟩] }

/-- A database with person 1 ("a") owning two tasks and person 2 ("b")
owning nothing: person 1 spans two join rows. -/
def dbD : DB :=
  { emptyDB with
      users := [mkUser 1 "a" "a@x", mkUser 2 "b" "b@x"],
      tasks := [⟨31, 1, "t31"⟩, ⟨32, 1, "t32"⟩] }

/-- A database with a lone person for the password-update instance. -/
def c9DB : DB :=
  { emptyDB with users := [mkUser 1 "a" "a@x"] }

/-- `dbB` after equipping item 2 for person 1. -/
def dbB2 : DB :=
  { dbB with user_item_links := [⟨1, 2, true⟩, ⟨1, 3, false⟩] }

/-- The view `equip_item_to_user dbB 1 2 true` returns. -/
def vB : UserView :=
  { id := 1, username := "a", email := "a@x", tribe := .OTHER,
    intelligence := 5, strength := 5, agility := 5, wise := 5, psycho := 5,
    items := [⟨2, "sword", true⟩, ⟨3, "shield", false⟩],
    tasks := [], ratings := [], comments := [], reactions := [], quests := [] }

/-- `c9DB` after the password update. -/
def c9DB2 : DB :=
  { c9DB with users := [{ mkUser 1 "a" "a@x" with password := "new" }] }

/-- The view `update_user_password c9DB 1 "new"` returns. -/
def v9 : UserView :=
  { id := 1, username := "a", email := "a@x", tribe := .OTHER,
    intelligence := 5, strength := 5, agility := 5, wise := 5, psycho := 5,
    items := [], tasks := [], ratings := [], comments := [], reactions := [], quests := [] }

/-- The user `create_user` persists in the creation instance below. -/
def u9b : User :=
  { id := 2, username := "b", email := "eb", tribe := .OTHER, password := "ph",
    intelligence := 5, strength := 5, agility := 5, wise := 5, psycho := 5,
    tasks := [], ratings := [], comments := [], reactions := [] }

/-- `c9DB` after that creation. -/
def c9DBb : DB :=
  { c9DB with users := [mkUser 1 "a" "a@x", u9b] }

end LevelUpLife

namespace LevelUpLife

/-! ### Generic lemmas about lists and insertion-ordered dicts -/

theorem mem_of_memB {κ : Type} [DecidableEq κ] {l : List κ} {k : κ} :
    l.any (fun y => y = k) = true ↔ k ∈ l := by
  simp

/-! ### C5: the attribute table -/

/-- C5: `calculate_initial_stats` is a total deterministic function (it is a
Lean function): NOSFERATI yields (8,2,2,1,10), VALHARS (1,10,6,6,2),
SAHARANS (9,2,3,10,1), GLIMMERKINS (10,2,2,7,4), every other category
(5,5,5,5,5), and all five values are non-negative for every category. -/
theorem calculate_initial_stats_spec :
    calculate_initial_stats .NOSFERATI = ⟨8, 2, 2, 1, 10⟩
    ∧ calculate_initial_stats .VALHARS = ⟨1, 10, 6, 6, 2⟩
    ∧ calculate_initial_stats .SAHARANS = ⟨9, 2, 3, 10, 1⟩
    ∧ calculate_initial_stats .GLIMMERKINS = ⟨10, 2, 2, 7, 4⟩
    ∧ calculate_initial_stats .OTHER = ⟨5, 5, 5, 5, 5⟩
    ∧ ∀ t : Tribe,
        0 ≤ (calculate_initial_stats t).intelligence
        ∧ 0 ≤ (calculate_initial_stats t).strength
        ∧ 0 ≤ (calculate_initial_stats t).agility
        ∧ 0 ≤ (calculate_initial_stats t).wise
        ∧ 0 ≤ (calculate_initial_stats t).psycho := by
  decide

/-! ### C8: the silent `None` return of `create_user` -/

/-- C8: when the commit reports an `IntegrityError` but the two re-queries
find no user with the requested email and none with the requested username,
`create_user` raises nothing and returns `None`, leaving the rolled-back
state unchanged. -/
theorem create_user_silent_none (hash : String → String) (new_id : Nat) (db : DB)
    (uc : UserCreate)
    (h1 : db.users.filter (fun u => u.email = uc.email) = [])
    (h2 : db.users.filter (fun u => u.username = uc.username) = []) :
    create_user hash new_id .integrityError db uc = .ok (none, db) := by
  simp [create_user, h1, h2]

/-- Witness for C8 at a concrete input: the empty database. -/
theorem create_user_silent_none_witness :
    create_user (fun s => s) 0 .integrityError emptyDB ⟨"u", "e", "p", .OTHER⟩ =
      .ok (none, emptyDB) :=
  create_user_silent_none (fun s => s) 0 emptyDB ⟨"u", "e", "p", .OTHER⟩ rfl rfl

end LevelUpLife

namespace LevelUpLife

/-! ### C2: duplicate entries in the single-entity view -/

theorem construct_user_view_child_ids (rows : List SingleRow) (v : UserView)
    (h : construct_user_view rows = some v) :
    v.items.map (fun x => x.id) = singleItemIds rows
    ∧ v.quests.map (fun x => x.id) = singleQuestIds rows := by
  cases rows with
  | nil => simp [construct_user_view] at h
  | cons r0 rest =>
    simp only [construct_user_view, Option.some.injEq] at h
    subst h
    refine ⟨?_, ?_⟩
    · simp only [singleItemIds, List.map_filterMap]
      congr 1
      funext r
      cases r.user_item_link <;> cases r.item <;> rfl
    · simp only [singleQuestIds, List.map_filterMap]
      congr 1
      funext r
      cases r.user_quest_link <;> cases r.quest <;> rfl

/-- C2 counterexample: the single-entity input `c2Rows` (one anchor person,
one possessed item, two quests — exactly the shape the items+quests join
produces) makes `_construct_user_view` emit the item id 7 twice, so the
claim "no two entries with the same child id" fails as stated. -/
theorem construct_user_view_dup_counterexample :
    (construct_user_view c2Rows).map (fun v => v.items.map (fun x => x.id)) = some [7, 7]
    ∧ ¬ ∀ v ∈ (construct_user_view c2Rows).toList,
        (v.items.map (fun x => x.id)).Nodup := by
  decide

/-- C2 amended: if additionally no two input tuples carry the same non-null
(link, item) item id and no two carry the same non-null (link, quest) quest
id, then the view built by `_construct_user_view` has no two item entries
with the same id and no two quest entries with the same id. -/
theorem construct_user_view_nodup_of_nodup_inputs (rows : List SingleRow) (u : User)
    (hne : rows ≠ []) (hanchor : ∀ r ∈ rows, r.user = u)
    (hitems : (singleItemIds rows).Nodup) (hquests : (singleQuestIds rows).Nodup) :
    ∀ v, construct_user_view rows = some v →
      (v.items.map (fun x => x.id)).Nodup ∧ (v.quests.map (fun x => x.id)).Nodup := by
  intro v hv
  obtain ⟨hi, hq⟩ := construct_user_view_child_ids rows v hv
  rw [hi, hq]
  exact ⟨hitems, hquests⟩

/-- Witness for the amended C2 at a concrete input: one person, distinct
items 7 and 8, no quests. -/
theorem construct_user_view_nodup_witness :
    (c2wView.items.map (fun x => x.id)).Nodup ∧ (c2wView.quests.map (fun x => x.id)).Nodup :=
  construct_user_view_nodup_of_nodup_inputs c2wRows (mkUser 1 "a" "a@x")
    (by decide) (by decide) (by decide) (by decide) c2wView (by decide)

end LevelUpLife

namespace LevelUpLife

/-! ### C3: the credential never reaches a view -/

theorem addItemEntry_pw (s : String) (r : BatchRow) (a : UserAcc) :
    addItemEntry (pwBatchRow s r) (pwAcc s a) = pwAcc s (addItemEntry r a) := by
  rcases r with ⟨u, link, item, _, _, _, _, _, _⟩
  cases link <;> cases item <;> rfl

theorem addTaskEntry_pw (s : String) (r : BatchRow) (a : UserAcc) :
    addTaskEntry (pwBatchRow s r) (pwAcc s a) = pwAcc s (addTaskEntry r a) := by
  rcases r with ⟨u, _, _, task, _, _, _, _, _⟩
  cases task <;> rfl

theorem addRatingEntry_pw (s : String) (r : BatchRow) (a : UserAcc) :
    addRatingEntry (pwBatchRow s r) (pwAcc s a) = pwAcc s (addRatingEntry r a) := by
  rcases r with ⟨u, _, _, _, rating, _, _, _, _⟩
  cases rating <;> rfl

theorem addCommentEntry_pw (s : String) (r : BatchRow) (a : UserAcc) :
    addCommentEntry (pwBatchRow s r) (pwAcc s a) = pwAcc s (addCommentEntry r a) := by
  rcases r with ⟨u, _, _, _, _, comment, _, _, _⟩
  cases comment <;> rfl

theorem addReactionEntry_pw (s : String) (r : BatchRow) (a : UserAcc) :
    addReactionEntry (pwBatchRow s r) (pwAcc s a) = pwAcc s (addReactionEntry r a) := by
  rcases r with ⟨u, _, _, _, _, _, reaction, _, _⟩
  cases reaction <;> rfl

theorem addQuestEntry_pw (s : String) (r : BatchRow) (a : UserAcc) :
    addQuestEntry (pwBatchRow s r) (pwAcc s a) = pwAcc s (addQuestEntry r a) := by
  rcases r with ⟨u, _, _, _, _, _, _, qlink, quest⟩
  cases qlink <;> cases quest <;> rfl

theorem accAddRow_pw (s : String) (a : UserAcc) (r : BatchRow) :
    accAddRow (pwAcc s a) (pwBatchRow s r) = pwAcc s (accAddRow a r) := by
  unfold accAddRow
  rw [addItemEntry_pw, addTaskEntry_pw, addRatingEntry_pw, addCommentEntry_pw,
    addReactionEntry_pw, addQuestEntry_pw]

theorem updateAt_pwAcc (s : String) (m : List (Nat × UserAcc)) (k : Nat)
    (g : UserAcc → UserAcc) (g2 : UserAcc → UserAcc)
    (hg : ∀ a, g (pwAcc s a) = pwAcc s (g2 a)) :
    updateAt (m.map (fun e => (e.1, pwAcc s e.2))) k g
      = (updateAt m k g2).map (fun e => (e.1, pwAcc s e.2)) := by
  simp only [updateAt, List.map_map]
  apply List.map_congr_left
  intro e _
  by_cases h : e.1 = k <;> simp [Function.comp, h, hg]

theorem hasKey_map_pwAcc (s : String) (m : List (Nat × UserAcc)) (k : Nat) :
    hasKey (m.map (fun e => (e.1, pwAcc s e.2))) k = hasKey m k := by
  simp only [hasKey, List.any_map]
  rfl

theorem processRow_pw (s : String) (m : List (Nat × UserAcc)) (r : BatchRow) :
    processRow (m.map (fun e => (e.1, pwAcc s e.2))) (pwBatchRow s r)
      = (processRow m r).map (fun e => (e.1, pwAcc s e.2)) := by
  unfold processRow
  have hid : (pwBatchRow s r).user.id = r.user.id := rfl
  rw [hid, hasKey_map_pwAcc]
  cases hhk : hasKey m r.user.id with
  | true =>
    simp only [if_pos rfl]
    exact updateAt_pwAcc s m r.user.id _ _ (fun a => accAddRow_pw s a r)
  | false =>
    have hcond : ¬(false = true) := by simp
    rw [if_neg hcond, if_neg hcond]
    have hext : m.map (fun e => (e.1, pwAcc s e.2)) ++ [(r.user.id, emptyAcc (pwBatchRow s r).user)]
        = (m ++ [(r.user.id, emptyAcc r.user)]).map (fun e => (e.1, pwAcc s e.2)) := by
      simp [pwBatchRow, emptyAcc, pwAcc, withPassword]
    rw [hext]
    exact updateAt_pwAcc s _ r.user.id _ _ (fun a => accAddRow_pw s a r)

theorem foldl_processRow_pw (s : String) (rows : List BatchRow) :
    ∀ m : List (Nat × UserAcc),
      (rows.map (pwBatchRow s)).foldl processRow (m.map (fun e => (e.1, pwAcc s e.2)))
        = (rows.foldl processRow m).map (fun e => (e.1, pwAcc s e.2)) := by
  induction rows with
  | nil => intro m; rfl
  | cons r rs ih =>
    intro m
    simp only [List.map_cons, List.foldl_cons]
    rw [processRow_pw]
    exact ih (processRow m r)

/-- C3: no view produced by `_construct_user_view` or
`_construct_user_views` depends on the `password` column of any input
`Person` record — replacing every input password with an arbitrary string
leaves both outputs unchanged (and `UserView` has no password field at
all, structurally). -/
theorem views_independent_of_password (s : String) (rows : List BatchRow)
    (srows : List SingleRow) :
    construct_user_views (rows.map (pwBatchRow s)) = construct_user_views rows
    ∧ construct_user_view (srows.map (pwSingleRow s)) = construct_user_view srows := by
  constructor
  · unfold construct_user_views
    have h0 : ([] : List (Nat × UserAcc)) = ([] : List (Nat × UserAcc)).map
        (fun e => (e.1, pwAcc s e.2)) := rfl
    rw [h0, foldl_processRow_pw, List.map_map]
    apply List.map_congr_left
    intro e _
    rfl
  · cases srows with
    | nil => rfl
    | cons r0 rest =>
      simp only [List.map_cons, construct_user_view, Option.some.injEq]
      rw [← List.map_cons]
      simp only [UserView.mk.injEq]
      refine ⟨rfl, rfl, rfl, rfl, rfl, rfl, rfl, rfl, rfl, ?_, rfl, rfl, rfl, rfl, ?_⟩
      · rw [List.filterMap_map]
        congr 1
      · rw [List.filterMap_map]
        congr 1

end LevelUpLife

namespace LevelUpLife

/-! ### Insertion-ordered dict lemmas -/

theorem hasKey_eq_keys {κ α : Type} [DecidableEq κ] (m : List (κ × α)) (k : κ) :
    hasKey m k = (m.map Prod.fst).any (fun y => y = k) := by
  induction m with
  | nil => rfl
  | cons e rest ih =>
    simp only [hasKey, List.map_cons, List.any_cons] at ih ⊢
    rw [ih]

theorem updateAt_keys {κ α : Type} [DecidableEq κ] (m : List (κ × α)) (k : κ)
    (g : α → α) : (updateAt m k g).map Prod.fst = m.map Prod.fst := by
  simp only [updateAt, List.map_map]
  apply List.map_congr_left
  intro e _
  by_cases h : e.1 = k <;> simp [h]

theorem hasKey_false_lookup {κ α : Type} [DecidableEq κ] {m : List (κ × α)} {k : κ}
    (h : hasKey m k = false) : lookupKey m k = none := by
  induction m with
  | nil => rfl
  | cons e rest ih =>
    simp only [hasKey, List.any_cons, Bool.or_eq_false_iff] at h
    obtain ⟨h1, h2⟩ := h
    simp only [lookupKey]
    rw [if_neg (by simpa using h1)]
    exact ih h2

theorem hasKey_true_lookup {κ α : Type} [DecidableEq κ] {m : List (κ × α)} {k : κ}
    (h : hasKey m k = true) : ∃ a, lookupKey m k = some a := by
  induction m with
  | nil => simp [hasKey] at h
  | cons e rest ih =>
    simp only [hasKey, List.any_cons, Bool.or_eq_true] at h
    by_cases he : e.1 = k
    · exact ⟨e.2, by simp [lookupKey, he]⟩
    · obtain ⟨a, ha⟩ := ih (by
        rcases h with h | h
        · exact absurd (by simpa using h) he
        · simpa [hasKey] using h)
      exact ⟨a, by simp [lookupKey, he, ha]⟩

theorem lookup_append_single {κ α : Type} [DecidableEq κ] (m : List (κ × α))
    (k p : κ) (v : α) :
    lookupKey (m ++ [(k, v)]) p =
      match lookupKey m p with
      | some a => some a
      | none => if k = p then some v else none := by
  induction m with
  | nil => simp [lookupKey]
  | cons e rest ih =>
    by_cases he : e.1 = p
    · simp [lookupKey, he]
    · simpa [lookupKey, he] using ih

theorem lookup_updateAt {κ α : Type} [DecidableEq κ] (m : List (κ × α)) (k p : κ)
    (g : α → α) :
    lookupKey (updateAt m k g) p =
      if p = k then (lookupKey m p).map g else lookupKey m p := by
  induction m with
  | nil => by_cases h : p = k <;> simp [updateAt, lookupKey, h]
  | cons e rest ih =>
    have h1 : (if e.1 = k then (e.1, g e.2) else e) = (e.1, if e.1 = k then g e.2 else e.2) := by
      by_cases h : e.1 = k <;> simp [h]
    simp only [updateAt, List.map_cons] at ih ⊢
    rw [h1]
    by_cases hep : e.1 = p
    · simp only [lookupKey, if_pos hep]
      rw [hep]
      by_cases hpk : p = k <;> simp [hpk]
    · simp only [lookupKey, if_neg hep]
      rw [ih]

/-! ### The state of the batch loop -/

theorem faoFold_cons {κ : Type} [DecidableEq κ] (acc : List κ) (x : κ) (l : List κ) :
    faoFold acc (x :: l)
      = faoFold (if acc.any (fun y => y = x) then acc else acc ++ [x]) l := rfl

theorem processRows_keys (rows : List BatchRow) :
    ∀ m : List (Nat × UserAcc),
      ((rows.foldl processRow m).map Prod.fst)
        = faoFold (m.map Prod.fst) (rows.map (fun r => r.user.id)) := by
  induction rows with
  | nil => intro m; rfl
  | cons r rs ih =>
    intro m
    simp only [List.foldl_cons, List.map_cons, faoFold_cons]
    rw [ih]
    congr 1
    unfold processRow
    rw [← hasKey_eq_keys]
    cases hhk : hasKey m r.user.id with
    | true => simp [updateAt_keys]
    | false => simp [updateAt_keys]

theorem lookup_foldl_processRow (rows : List BatchRow) :
    ∀ (m : List (Nat × UserAcc)) (p : Nat),
      lookupKey (rows.foldl processRow m) p =
        match lookupKey m p with
        | some a => some ((rows.filter (fun r => r.user.id = p)).foldl accAddRow a)
        | none => accOfRows (rows.filter (fun r => r.user.id = p)) := by
  induction rows with
  | nil =>
    intro m p
    cases h : lookupKey m p <;> simp [h, accOfRows]
  | cons r rs ih =>
    intro m p
    simp only [List.foldl_cons]
    rw [ih (processRow m r) p]
    by_cases hp : r.user.id = p
    · have hfil : (r :: rs).filter (fun x => x.user.id = p)
          = r :: rs.filter (fun x => x.user.id = p) := by
        simp [List.filter_cons, hp]
      rw [hfil]
      cases hhk : hasKey m r.user.id with
      | true =>
        obtain ⟨a, ha⟩ := hasKey_true_lookup (hp ▸ hhk)
        have hl : lookupKey (processRow m r) p = some (accAddRow a r) := by
          unfold processRow
          rw [hhk, if_pos rfl, lookup_updateAt, if_pos hp.symm, ha]
          rfl
        rw [hl, ha]
        simp
      | false =>
        have hnone : lookupKey m p = none := hasKey_false_lookup (hp ▸ hhk)
        have hl : lookupKey (processRow m r) p = some (accAddRow (emptyAcc r.user) r) := by
          unfold processRow
          rw [hhk, if_neg (by simp), lookup_updateAt, if_pos hp.symm,
            lookup_append_single, hnone]
          simp [hp]
        rw [hl, hnone]
        simp [accOfRows]
    · have hfil : (r :: rs).filter (fun x => x.user.id = p)
          = rs.filter (fun x => x.user.id = p) := by
        simp [List.filter_cons, hp]
      rw [hfil]
      have hl : lookupKey (processRow m r) p = lookupKey m p := by
        unfold processRow
        have hpk : ¬ p = r.user.id := fun h => hp h.symm
        cases hhk : hasKey m r.user.id with
        | true =>
          rw [if_pos rfl, lookup_updateAt, if_neg hpk]
        | false =>
          rw [if_neg (by simp), lookup_updateAt, if_neg hpk,
            lookup_append_single]
          cases h : lookupKey m p <;> simp [h, hp]
      rw [hl]

end LevelUpLife

namespace LevelUpLife

/-! ### faoFold and insertStream lemmas -/

theorem faoFold_nodup {κ : Type} [DecidableEq κ] (l : List κ) :
    ∀ acc : List κ, acc.Nodup → (faoFold acc l).Nodup := by
  induction l with
  | nil => intro acc h; exact h
  | cons x xs ih =>
    intro acc h
    rw [faoFold_cons]
    cases hx : acc.any (fun y => y = x) with
    | true => simpa [hx] using ih acc h
    | false =>
      have hnx : x ∉ acc := by
        intro hmem
        rw [(mem_of_memB (l := acc) (k := x)).mpr hmem] at hx
        exact absurd hx (by decide)
      have hnd : (acc ++ [x]).Nodup := by
        rw [List.nodup_append]
        refine ⟨h, List.nodup_singleton x, fun a ha hax => ?_⟩
        simp only [List.mem_singleton] at hax
        exact hnx (hax ▸ ha)
      simpa [hx] using ih _ hnd

theorem mem_faoFold {κ : Type} [DecidableEq κ] (l : List κ) :
    ∀ (acc : List κ) (x : κ), x ∈ faoFold acc l ↔ x ∈ acc ∨ x ∈ l := by
  induction l with
  | nil => intro acc x; simp [faoFold]
  | cons y ys ih =>
    intro acc x
    rw [faoFold_cons]
    cases hy : acc.any (fun z => z = y) with
    | true =>
      have hmem : y ∈ acc := (mem_of_memB (l := acc) (k := y)).mp hy
      rw [if_pos rfl, ih]
      constructor
      · rintro (h | h)
        · exact Or.inl h
        · exact Or.inr (List.mem_cons_of_mem _ h)
      · rintro (h | h)
        · exact Or.inl h
        · rcases List.mem_cons.mp h with rfl | h
          · exact Or.inl hmem
          · exact Or.inr h
    | false =>
      rw [if_neg (by simp), ih]
      simp only [List.mem_append, List.mem_singleton, List.mem_cons]
      tauto

theorem lookup_of_mem_nodupKeys {κ α : Type} [DecidableEq κ] :
    ∀ m : List (κ × α), (m.map Prod.fst).Nodup →
      ∀ e ∈ m, lookupKey m e.1 = some e.2 := by
  intro m
  induction m with
  | nil => intro _ e he; cases he
  | cons x rest ih =>
    intro hnd e he
    simp only [List.map_cons, List.nodup_cons] at hnd
    rcases List.mem_cons.mp he with rfl | he
    · simp [lookupKey]
    · have hx : ¬ x.1 = e.1 := by
        intro h
        exact hnd.1 (h ▸ (List.mem_map_of_mem Prod.fst he))
      simp only [lookupKey, if_neg hx]
      exact ih hnd.2 e he

theorem insertStream_nil {κ α : Type} [DecidableEq κ] (m : List (κ × α)) :
    insertStream m [] = m := rfl

theorem insertStream_append {κ α : Type} [DecidableEq κ] (m : List (κ × α))
    (e1 e2 : List (κ × α)) :
    insertStream m (e1 ++ e2) = insertStream (insertStream m e1) e2 :=
  List.foldl_append _ _ _ _

theorem insertStream_keys {κ α : Type} [DecidableEq κ] (evs : List (κ × α)) :
    ∀ m : List (κ × α),
      (insertStream m evs).map Prod.fst = faoFold (m.map Prod.fst) (evs.map Prod.fst) := by
  induction evs with
  | nil => intro m; rfl
  | cons e es ih =>
    intro m
    simp only [insertStream, List.foldl_cons, List.map_cons, faoFold_cons]
    rw [show List.foldl (fun m e => insertIfAbsent m e.1 e.2) (insertIfAbsent m e.1 e.2) es
        = insertStream (insertIfAbsent m e.1 e.2) es from rfl]
    rw [ih]
    congr 1
    unfold insertIfAbsent
    rw [hasKey_eq_keys]
    cases hk : (m.map Prod.fst).any (fun y => y = e.1) with
    | true => simp
    | false => simp

theorem insertStream_mem {κ α : Type} [DecidableEq κ] (evs : List (κ × α)) :
    ∀ (m : List (κ × α)) (e : κ × α), e ∈ insertStream m evs → e ∈ m ∨ e ∈ evs := by
  induction evs with
  | nil => intro m e h; exact Or.inl h
  | cons ev es ih =>
    intro m e h
    rcases ih (insertIfAbsent m ev.1 ev.2) e h with h2 | h2
    · unfold insertIfAbsent at h2
      by_cases hk : hasKey m ev.1 = true
      · rw [if_pos hk] at h2
        exact Or.inl h2
      · rw [if_neg hk] at h2
        rcases List.mem_append.mp h2 with h3 | h3
        · exact Or.inl h3
        · right
          simp only [List.mem_singleton] at h3
          simp [h3]
    · exact Or.inr (List.mem_cons_of_mem _ h2)

/-! ### Per-collection behaviour of one loop iteration -/

theorem addItemEntry_items (r : BatchRow) (a : UserAcc) :
    (addItemEntry r a).items = insertStream a.items (itemEventsOf r) := by
  rcases r with ⟨u, link, item, _, _, _, _, _, _⟩
  cases link <;> cases item <;> rfl

theorem addItemEntry_user (r : BatchRow) (a : UserAcc) :
    (addItemEntry r a).user = a.user := by
  rcases r with ⟨u, link, item, _, _, _, _, _, _⟩
  cases link <;> cases item <;> rfl

theorem addItemEntry_tasks (r : BatchRow) (a : UserAcc) :
    (addItemEntry r a).tasks = a.tasks := by
  rcases r with ⟨u, link, item, _, _, _, _, _, _⟩
  cases link <;> cases item <;> rfl

theorem addItemEntry_ratings (r : BatchRow) (a : UserAcc) :
    (addItemEntry r a).ratings = a.ratings := by
  rcases r with ⟨u, link, item, _, _, _, _, _, _⟩
  cases link <;> cases item <;> rfl

theorem addItemEntry_comments (r : BatchRow) (a : UserAcc) :
    (addItemEntry r a).comments = a.comments := by
  rcases r with ⟨u, link, item, _, _, _, _, _, _⟩
  cases link <;> cases item <;> rfl

theorem addItemEntry_reactions (r : BatchRow) (a : UserAcc) :
    (addItemEntry r a).reactions = a.reactions := by
  rcases r with ⟨u, link, item, _, _, _, _, _, _⟩
  cases link <;> cases item <;> rfl

theorem addItemEntry_quests (r : BatchRow) (a : UserAcc) :
    (addItemEntry r a).quests = a.quests := by
  rcases r with ⟨u, link, item, _, _, _, _, _, _⟩
  cases link <;> cases item <;> rfl

theorem addTaskEntry_tasks (r : BatchRow) (a : UserAcc) :
    (addTaskEntry r a).tasks = insertStream a.tasks (taskEventsOf r) := by
  rcases r with ⟨u, _, _, task, _, _, _, _, _⟩
  cases task <;> rfl

theorem addTaskEntry_user (r : BatchRow) (a : UserAcc) :
    (addTaskEntry r a).user = a.user := by
  rcases r with ⟨u, _, _, task, _, _, _, _, _⟩
  cases task <;> rfl

theorem addTaskEntry_items (r : BatchRow) (a : UserAcc) :
    (addTaskEntry r a).items = a.items := by
  rcases r with ⟨u, _, _, task, _, _, _, _, _⟩
  cases task <;> rfl

theorem addTaskEntry_ratings (r : BatchRow) (a : UserAcc) :
    (addTaskEntry r a).ratings = a.ratings := by
  rcases r with ⟨u, _, _, task, _, _, _, _, _⟩
  cases task <;> rfl

theorem addTaskEntry_comments (r : BatchRow) (a : UserAcc) :
    (addTaskEntry r a).comments = a.comments := by
  rcases r with ⟨u, _, _, task, _, _, _, _, _⟩
  cases task <;> rfl

theorem addTaskEntry_reactions (r : BatchRow) (a : UserAcc) :
    (addTaskEntry r a).reactions = a.reactions := by
  rcases r with ⟨u, _, _, task, _, _, _, _, _⟩
  cases task <;> rfl

theorem addTaskEntry_quests (r : BatchRow) (a : UserAcc) :
    (addTaskEntry r a).quests = a.quests := by
  rcases r with ⟨u, _, _, task, _, _, _, _, _⟩
  cases task <;> rfl

theorem addRatingEntry_ratings (r : BatchRow) (a : UserAcc) :
    (addRatingEntry r a).ratings = insertStream a.ratings (ratingEventsOf r) := by
  rcases r with ⟨u, _, _, _, rating, _, _, _, _⟩
  cases rating <;> rfl

theorem addRatingEntry_user (r : BatchRow) (a : UserAcc) :
    (addRatingEntry r a).user = a.user := by
  rcases r with ⟨u, _, _, _, rating, _, _, _, _⟩
  cases rating <;> rfl

theorem addRatingEntry_items (r : BatchRow) (a : UserAcc) :
    (addRatingEntry r a).items = a.items := by
  rcases r with ⟨u, _, _, _, rating, _, _, _, _⟩
  cases rating <;> rfl

theorem addRatingEntry_tasks (r : BatchRow) (a : UserAcc) :
    (addRatingEntry r a).tasks = a.tasks := by
  rcases r with ⟨u, _, _, _, rating, _, _, _, _⟩
  cases rating <;> rfl

theorem addRatingEntry_comments (r : BatchRow) (a : UserAcc) :
    (addRatingEntry r a).comments = a.comments := by
  rcases r with ⟨u, _, _, _, rating, _, _, _, _⟩
  cases rating <;> rfl

theorem addRatingEntry_reactions (r : BatchRow) (a : UserAcc) :
    (addRatingEntry r a).reactions = a.reactions := by
  rcases r with ⟨u, _, _, _, rating, _, _, _, _⟩
  cases rating <;> rfl

theorem addRatingEntry_quests (r : BatchRow) (a : UserAcc) :
    (addRatingEntry r a).quests = a.quests := by
  rcases r with ⟨u, _, _, _, rating, _, _, _, _⟩
  cases rating <;> rfl

theorem addCommentEntry_comments (r : BatchRow) (a : UserAcc) :
    (addCommentEntry r a).comments = insertStream a.comments (commentEventsOf r) := by
  rcases r with ⟨u, _, _, _, _, comment, _, _, _⟩
  cases comment <;> rfl

theorem addCommentEntry_user (r : BatchRow) (a : UserAcc) :
    (addCommentEntry r a).user = a.user := by
  rcases r with ⟨u, _, _, _, _, comment, _, _, _⟩
  cases comment <;> rfl

theorem addCommentEntry_items (r : BatchRow) (a : UserAcc) :
    (addCommentEntry r a).items = a.items := by
  rcases r with ⟨u, _, _, _, _, comment, _, _, _⟩
  cases comment <;> rfl

theorem addCommentEntry_tasks (r : BatchRow) (a : UserAcc) :
    (addCommentEntry r a).tasks = a.tasks := by
  rcases r with ⟨u, _, _, _, _, comment, _, _, _⟩
  cases comment <;> rfl

theorem addCommentEntry_ratings (r : BatchRow) (a : UserAcc) :
    (addCommentEntry r a).ratings = a.ratings := by
  rcases r with ⟨u, _, _, _, _, comment, _, _, _⟩
  cases comment <;> rfl

theorem addCommentEntry_reactions (r : BatchRow) (a : UserAcc) :
    (addCommentEntry r a).reactions = a.reactions := by
  rcases r with ⟨u, _, _, _, _, comment, _, _, _⟩
  cases comment <;> rfl

theorem addCommentEntry_quests (r : BatchRow) (a : UserAcc) :
    (addCommentEntry r a).quests = a.quests := by
  rcases r with ⟨u, _, _, _, _, comment, _, _, _⟩
  cases comment <;> rfl

theorem addReactionEntry_reactions (r : BatchRow) (a : UserAcc) :
    (addReactionEntry r a).reactions = insertStream a.reactions (reactionEventsOf r) := by
  rcases r with ⟨u, _, _, _, _, _, reaction, _, _⟩
  cases reaction <;> rfl

theorem addReactionEntry_user (r : BatchRow) (a : UserAcc) :
    (addReactionEntry r a).user = a.user := by
  rcases r with ⟨u, _, _, _, _, _, reaction, _, _⟩
  cases reaction <;> rfl

theorem addReactionEntry_items (r : BatchRow) (a : UserAcc) :
    (addReactionEntry r a).items = a.items := by
  rcases r with ⟨u, _, _, _, _, _, reaction, _, _⟩
  cases reaction <;> rfl

theorem addReactionEntry_tasks (r : BatchRow) (a : UserAcc) :
    (addReactionEntry r a).tasks = a.tasks := by
  rcases r with ⟨u, _, _, _, _, _, reaction, _, _⟩
  cases reaction <;> rfl

theorem addReactionEntry_ratings (r : BatchRow) (a : UserAcc) :
    (addReactionEntry r a).ratings = a.ratings := by
  rcases r with ⟨u, _, _, _, _, _, reaction, _, _⟩
  cases reaction <;> rfl

theorem addReactionEntry_comments (r : BatchRow) (a : UserAcc) :
    (addReactionEntry r a).comments = a.comments := by
  rcases r with ⟨u, _, _, _, _, _, reaction, _, _⟩
  cases reaction <;> rfl

theorem addReactionEntry_quests (r : BatchRow) (a : UserAcc) :
    (addReactionEntry r a).quests = a.quests := by
  rcases r with ⟨u, _, _, _, _, _, reaction, _, _⟩
  cases reaction <;> rfl

theorem addQuestEntry_quests (r : BatchRow) (a : UserAcc) :
    (addQuestEntry r a).quests = insertStream a.quests (questEventsOf r) := by
  rcases r with ⟨u, _, _, _, _, _, _, qlink, quest⟩
  cases qlink <;> cases quest <;> rfl

theorem addQuestEntry_user (r : BatchRow) (a : UserAcc) :
    (addQuestEntry r a).user = a.user := by
  rcases r with ⟨u, _, _, _, _, _, _, qlink, quest⟩
  cases qlink <;> cases quest <;> rfl

theorem addQuestEntry_items (r : BatchRow) (a : UserAcc) :
    (addQuestEntry r a).items = a.items := by
  rcases r with ⟨u, _, _, _, _, _, _, qlink, quest⟩
  cases qlink <;> cases quest <;> rfl

theorem addQuestEntry_tasks (r : BatchRow) (a : UserAcc) :
    (addQuestEntry r a).tasks = a.tasks := by
  rcases r with ⟨u, _, _, _, _, _, _, qlink, quest⟩
  cases qlink <;> cases quest <;> rfl

theorem addQuestEntry_ratings (r : BatchRow) (a : UserAcc) :
    (addQuestEntry r a).ratings = a.ratings := by
  rcases r with ⟨u, _, _, _, _, _, _, qlink, quest⟩
  cases qlink <;> cases quest <;> rfl

theorem addQuestEntry_comments (r : BatchRow) (a : UserAcc) :
    (addQuestEntry r a).comments = a.comments := by
  rcases r with ⟨u, _, _, _, _, _, _, qlink, quest⟩
  cases qlink <;> cases quest <;> rfl

theorem addQuestEntry_reactions (r : BatchRow) (a : UserAcc) :
    (addQuestEntry r a).reactions = a.reactions := by
  rcases r with ⟨u, _, _, _, _, _, _, qlink, quest⟩
  cases qlink <;> cases quest <;> rfl

theorem accAddRow_user (a : UserAcc) (r : BatchRow) :
    (accAddRow a r).user = a.user := by
  unfold accAddRow
  rw [addQuestEntry_user, addReactionEntry_user, addCommentEntry_user,
    addRatingEntry_user, addTaskEntry_user, addItemEntry_user]

theorem accAddRow_items (a : UserAcc) (r : BatchRow) :
    (accAddRow a r).items = insertStream a.items (itemEventsOf r) := by
  unfold accAddRow
  rw [addQuestEntry_items, addReactionEntry_items, addCommentEntry_items, addRatingEntry_items, addTaskEntry_items, addItemEntry_items]

theorem accAddRow_tasks (a : UserAcc) (r : BatchRow) :
    (accAddRow a r).tasks = insertStream a.tasks (taskEventsOf r) := by
  unfold accAddRow
  rw [addQuestEntry_tasks, addReactionEntry_tasks, addCommentEntry_tasks, addRatingEntry_tasks, addTaskEntry_tasks, addItemEntry_tasks]

theorem accAddRow_ratings (a : UserAcc) (r : BatchRow) :
    (accAddRow a r).ratings = insertStream a.ratings (ratingEventsOf r) := by
  unfold accAddRow
  rw [addQuestEntry_ratings, addReactionEntry_ratings, addCommentEntry_ratings, addRatingEntry_ratings, addTaskEntry_ratings, addItemEntry_ratings]

theorem accAddRow_comments (a : UserAcc) (r : BatchRow) :
    (accAddRow a r).comments = insertStream a.comments (commentEventsOf r) := by
  unfold accAddRow
  rw [addQuestEntry_comments, addReactionEntry_comments, addCommentEntry_comments, addRatingEntry_comments, addTaskEntry_comments, addItemEntry_comments]

theorem accAddRow_reactions (a : UserAcc) (r : BatchRow) :
    (accAddRow a r).reactions = insertStream a.reactions (reactionEventsOf r) := by
  unfold accAddRow
  rw [addQuestEntry_reactions, addReactionEntry_reactions, addCommentEntry_reactions, addRatingEntry_reactions, addTaskEntry_reactions, addItemEntry_reactions]

theorem accAddRow_quests (a : UserAcc) (r : BatchRow) :
    (accAddRow a r).quests = insertStream a.quests (questEventsOf r) := by
  unfold accAddRow
  rw [addQuestEntry_quests, addReactionEntry_quests, addCommentEntry_quests, addRatingEntry_quests, addTaskEntry_quests, addItemEntry_quests]

theorem foldl_accAddRow_user (rs : List BatchRow) :
    ∀ a : UserAcc, (rs.foldl accAddRow a).user = a.user := by
  induction rs with
  | nil => intro a; rfl
  | cons r rest ih =>
    intro a
    simp only [List.foldl_cons]
    rw [ih, accAddRow_user]

theorem foldl_accAddRow_items (rs : List BatchRow) :
    ∀ a : UserAcc, (rs.foldl accAddRow a).items
      = insertStream a.items (rs.flatMap itemEventsOf) := by
  induction rs with
  | nil => intro a; rfl
  | cons r rest ih =>
    intro a
    simp only [List.foldl_cons, List.flatMap_cons]
    rw [ih, accAddRow_items, insertStream_append]

theorem foldl_accAddRow_tasks (rs : List BatchRow) :
    ∀ a : UserAcc, (rs.foldl accAddRow a).tasks
      = insertStream a.tasks (rs.flatMap taskEventsOf) := by
  induction rs with
  | nil => intro a; rfl
  | cons r rest ih =>
    intro a
    simp only [List.foldl_cons, List.flatMap_cons]
    rw [ih, accAddRow_tasks, insertStream_append]

theorem foldl_accAddRow_ratings (rs : List BatchRow) :
    ∀ a : UserAcc, (rs.foldl accAddRow a).ratings
      = insertStream a.ratings (rs.flatMap ratingEventsOf) := by
  induction rs with
  | nil => intro a; rfl
  | cons r rest ih =>
    intro a
    simp only [List.foldl_cons, List.flatMap_cons]
    rw [ih, accAddRow_ratings, insertStream_append]

theorem foldl_accAddRow_comments (rs : List BatchRow) :
    ∀ a : UserAcc, (rs.foldl accAddRow a).comments
      = insertStream a.comments (rs.flatMap commentEventsOf) := by
  induction rs with
  | nil => intro a; rfl
  | cons r rest ih =>
    intro a
    simp only [List.foldl_cons, List.flatMap_cons]
    rw [ih, accAddRow_comments, insertStream_append]

theorem foldl_accAddRow_reactions (rs : List BatchRow) :
    ∀ a : UserAcc, (rs.foldl accAddRow a).reactions
      = insertStream a.reactions (rs.flatMap reactionEventsOf) := by
  induction rs with
  | nil => intro a; rfl
  | cons r rest ih =>
    intro a
    simp only [List.foldl_cons, List.flatMap_cons]
    rw [ih, accAddRow_reactions, insertStream_append]

theorem foldl_accAddRow_quests (rs : List BatchRow) :
    ∀ a : UserAcc, (rs.foldl accAddRow a).quests
      = insertStream a.quests (rs.flatMap questEventsOf) := by
  induction rs with
  | nil => intro a; rfl
  | cons r rest ih =>
    intro a
    simp only [List.foldl_cons, List.flatMap_cons]
    rw [ih, accAddRow_quests, insertStream_append]

end LevelUpLife

namespace LevelUpLife

/-! ### From event streams to the spec-side key streams -/

theorem itemEvents_keys (rows : List BatchRow) (p : Nat) :
    ((rows.filter (fun r => r.user.id = p)).flatMap itemEventsOf).map Prod.fst
      = (specItemKeys rows p).map (fun i => (i, p)) := by
  induction rows with
  | nil => rfl
  | cons r rs ih =>
    by_cases hp : r.user.id = p
    · cases hl : r.user_item_link <;> cases hi : r.item <;>
        simp [List.filter_cons, itemEventsOf, specItemKeys, List.filterMap_cons, hp, hl, hi, ih]
    · simp [List.filter_cons, specItemKeys, List.filterMap_cons, hp, ih]

theorem itemEvents_snd (r : BatchRow) (e : _) (he : e ∈ itemEventsOf r) : e.2.id = e.1.1 := by
  rcases r with ⟨u, link, item, _, _, _, _, _, _⟩
  cases link <;> cases item <;> simp_all [itemEventsOf]

theorem questEvents_keys (rows : List BatchRow) (p : Nat) :
    ((rows.filter (fun r => r.user.id = p)).flatMap questEventsOf).map Prod.fst
      = (specQuestKeys rows p).map (fun i => (i, p)) := by
  induction rows with
  | nil => rfl
  | cons r rs ih =>
    by_cases hp : r.user.id = p
    · cases hl : r.user_quest_link <;> cases hi : r.quest <;>
        simp [List.filter_cons, questEventsOf, specQuestKeys, List.filterMap_cons, hp, hl, hi, ih]
    · simp [List.filter_cons, specQuestKeys, List.filterMap_cons, hp, ih]

theorem questEvents_snd (r : BatchRow) (e : _) (he : e ∈ questEventsOf r) : e.2.id = e.1.1 := by
  rcases r with ⟨u, _, _, _, _, _, _, qlink, quest⟩
  cases qlink <;> cases quest <;> simp_all [questEventsOf]

theorem taskEvents_keys (rows : List BatchRow) (p : Nat) :
    ((rows.filter (fun r => r.user.id = p)).flatMap taskEventsOf).map Prod.fst
      = specTaskKeys rows p := by
  induction rows with
  | nil => rfl
  | cons r rs ih =>
    by_cases hp : r.user.id = p
    · cases hl : r.task <;>
        simp [List.filter_cons, taskEventsOf, specTaskKeys, List.filterMap_cons, hp, hl, ih]
    · simp [List.filter_cons, specTaskKeys, List.filterMap_cons, hp, ih]

theorem taskEvents_snd (r : BatchRow) (e : _) (he : e ∈ taskEventsOf r) : e.2.id = e.1 := by
  rcases r with ⟨u, _, _, task, _, _, _, _, _⟩
  cases task <;> simp_all [taskEventsOf]

theorem ratingEvents_keys (rows : List BatchRow) (p : Nat) :
    ((rows.filter (fun r => r.user.id = p)).flatMap ratingEventsOf).map Prod.fst
      = specRatingKeys rows p := by
  induction rows with
  | nil => rfl
  | cons r rs ih =>
    by_cases hp : r.user.id = p
    · cases hl : r.rating <;>
        simp [List.filter_cons, ratingEventsOf, specRatingKeys, List.filterMap_cons, hp, hl, ih]
    · simp [List.filter_cons, specRatingKeys, List.filterMap_cons, hp, ih]

theorem ratingEvents_snd (r : BatchRow) (e : _) (he : e ∈ ratingEventsOf r) : e.2.id = e.1 := by
  rcases r with ⟨u, _, _, _, rating, _, _, _, _⟩
  cases rating <;> simp_all [ratingEventsOf]

theorem commentEvents_keys (rows : List BatchRow) (p : Nat) :
    ((rows.filter (fun r => r.user.id = p)).flatMap commentEventsOf).map Prod.fst
      = specCommentKeys rows p := by
  induction rows with
  | nil => rfl
  | cons r rs ih =>
    by_cases hp : r.user.id = p
    · cases hl : r.comment <;>
        simp [List.filter_cons, commentEventsOf, specCommentKeys, List.filterMap_cons, hp, hl, ih]
    · simp [List.filter_cons, specCommentKeys, List.filterMap_cons, hp, ih]

theorem commentEvents_snd (r : BatchRow) (e : _) (he : e ∈ commentEventsOf r) : e.2.id = e.1 := by
  rcases r with ⟨u, _, _, _, _, comment, _, _, _⟩
  cases comment <;> simp_all [commentEventsOf]

theorem reactionEvents_keys (rows : List BatchRow) (p : Nat) :
    ((rows.filter (fun r => r.user.id = p)).flatMap reactionEventsOf).map Prod.fst
      = specReactionKeys rows p := by
  induction rows with
  | nil => rfl
  | cons r rs ih =>
    by_cases hp : r.user.id = p
    · cases hl : r.reaction <;>
        simp [List.filter_cons, reactionEventsOf, specReactionKeys, List.filterMap_cons, hp, hl, ih]
    · simp [List.filter_cons, specReactionKeys, List.filterMap_cons, hp, ih]

theorem reactionEvents_snd (r : BatchRow) (e : _) (he : e ∈ reactionEventsOf r) : e.2.id = e.1 := by
  rcases r with ⟨u, _, _, _, _, _, reaction, _, _⟩
  cases reaction <;> simp_all [reactionEventsOf]

theorem faoFold_map_pair (p : Nat) (l : List Nat) :
    ∀ acc : List Nat,
      faoFold (acc.map (fun i => (i, p))) (l.map (fun i => (i, p)))
        = (faoFold acc l).map (fun i => (i, p)) := by
  induction l with
  | nil => intro acc; rfl
  | cons x xs ih =>
    intro acc
    simp only [List.map_cons, faoFold_cons]
    have hmem : ((acc.map (fun i => (i, p))).any (fun y => y = (x, p)))
        = acc.any (fun y => y = x) := by
      induction acc with
      | nil => rfl
      | cons a as iha =>
        simp only [List.map_cons, List.any_cons, iha]
        congr 1
        rw [decide_eq_decide]
        simp
    rw [hmem]
    cases h : acc.any (fun y => y = x) with
    | true => simpa using ih acc
    | false =>
      have hx : (acc ++ [x]).map (fun i => (i, p))
          = acc.map (fun i => (i, p)) ++ [(x, p)] := by simp
      simp only [if_neg (by simp : ¬ (false = true))]
      rw [← hx]
      exact ih (acc ++ [x])

theorem map_pair_fst (p : Nat) (L : List Nat) :
    (L.map (fun i => (i, p))).map Prod.fst = L := by
  induction L with
  | nil => rfl
  | cons x xs ih =>
    simp only [List.map_cons]
    rw [ih]

/-! ### What the final accumulator of the batch loop holds per person -/

theorem final_entry_spec (rows : List BatchRow) (e : Nat × UserAcc)
    (he : e ∈ rows.foldl processRow []) :
    e.2.user.id = e.1
    ∧ e.2.items.map (fun x => x.2.id) = firstAppearanceOrder (specItemKeys rows e.1)
    ∧ e.2.tasks.map (fun x => x.2.id) = firstAppearanceOrder (specTaskKeys rows e.1)
    ∧ e.2.ratings.map (fun x => x.2.id) = firstAppearanceOrder (specRatingKeys rows e.1)
    ∧ e.2.comments.map (fun x => x.2.id) = firstAppearanceOrder (specCommentKeys rows e.1)
    ∧ e.2.reactions.map (fun x => x.2.id) = firstAppearanceOrder (specReactionKeys rows e.1)
    ∧ e.2.quests.map (fun x => x.2.id) = firstAppearanceOrder (specQuestKeys rows e.1) := by
  have hkeys := processRows_keys rows []
  have hnodup : ((rows.foldl processRow []).map Prod.fst).Nodup := by
    rw [hkeys]
    exact faoFold_nodup _ [] List.nodup_nil
  have hlook := lookup_of_mem_nodupKeys _ hnodup e he
  rw [lookup_foldl_processRow rows [] e.1] at hlook
  simp only [lookupKey] at hlook
  cases hfil : rows.filter (fun r => r.user.id = e.1) with
  | nil =>
    rw [hfil] at hlook
    simp [accOfRows] at hlook
  | cons r0 rest =>
    rw [hfil] at hlook
    simp only [accOfRows] at hlook
    injection hlook with hlook
    have he2 : e.2 = (r0 :: rest).foldl accAddRow (emptyAcc r0.user) := hlook.symm
    have hr0 : r0.user.id = e.1 := by
      have hmem : r0 ∈ rows.filter (fun r => r.user.id = e.1) := by
        rw [hfil]; exact List.mem_cons_self _ _
      simpa using List.of_mem_filter hmem
    refine ⟨?_, ?_, ?_, ?_, ?_, ?_, ?_⟩
    · rw [he2, foldl_accAddRow_user]
      exact hr0
    · rw [he2, foldl_accAddRow_items]
      have hvals : ∀ x ∈ insertStream (emptyAcc r0.user).items
          ((r0 :: rest).flatMap itemEventsOf), x.2.id = x.1.1 := by
        intro x hx
        rcases insertStream_mem _ _ _ hx with h | h
        · cases h
        · rcases List.mem_flatMap.mp h with ⟨r, _, hxr⟩
          exact itemEvents_snd r x hxr
      rw [List.map_congr_left hvals]
      have hmm : (insertStream (emptyAcc r0.user).items ((r0 :: rest).flatMap itemEventsOf)).map
            (fun x => x.1.1)
          = ((insertStream (emptyAcc r0.user).items ((r0 :: rest).flatMap itemEventsOf)).map
              Prod.fst).map Prod.fst := by
        rw [List.map_map]
        rfl
      rw [hmm, insertStream_keys]
      rw [show (emptyAcc r0.user).items.map Prod.fst = ([] : List (Nat × Nat)) from rfl]
      rw [← hfil, itemEvents_keys]
      rw [show ([] : List (Nat × Nat)) = ([] : List Nat).map (fun i => (i, e.1)) from rfl,
        faoFold_map_pair, map_pair_fst]
      rfl
    · rw [he2, foldl_accAddRow_tasks]
      have hvals : ∀ x ∈ insertStream (emptyAcc r0.user).tasks
          ((r0 :: rest).flatMap taskEventsOf), x.2.id = x.1 := by
        intro x hx
        rcases insertStream_mem _ _ _ hx with h | h
        · cases h
        · rcases List.mem_flatMap.mp h with ⟨r, _, hxr⟩
          exact taskEvents_snd r x hxr
      rw [List.map_congr_left hvals, show (insertStream (emptyAcc r0.user).tasks
          ((r0 :: rest).flatMap taskEventsOf)).map (fun x => x.1)
          = (insertStream (emptyAcc r0.user).tasks ((r0 :: rest).flatMap taskEventsOf)).map
            Prod.fst from rfl, insertStream_keys]
      rw [show (emptyAcc r0.user).tasks.map Prod.fst = ([] : List Nat) from rfl]
      rw [← hfil, taskEvents_keys]
      rfl
    · rw [he2, foldl_accAddRow_ratings]
      have hvals : ∀ x ∈ insertStream (emptyAcc r0.user).ratings
          ((r0 :: rest).flatMap ratingEventsOf), x.2.id = x.1 := by
        intro x hx
        rcases insertStream_mem _ _ _ hx with h | h
        · cases h
        · rcases List.mem_flatMap.mp h with ⟨r, _, hxr⟩
          exact ratingEvents_snd r x hxr
      rw [List.map_congr_left hvals, show (insertStream (emptyAcc r0.user).ratings
          ((r0 :: rest).flatMap ratingEventsOf)).map (fun x => x.1)
          = (insertStream (emptyAcc r0.user).ratings ((r0 :: rest).flatMap ratingEventsOf)).map
            Prod.fst from rfl, insertStream_keys]
      rw [show (emptyAcc r0.user).ratings.map Prod.fst = ([] : List Nat) from rfl]
      rw [← hfil, ratingEvents_keys]
      rfl
    · rw [he2, foldl_accAddRow_comments]
      have hvals : ∀ x ∈ insertStream (emptyAcc r0.user).comments
          ((r0 :: rest).flatMap commentEventsOf), x.2.id = x.1 := by
        intro x hx
        rcases insertStream_mem _ _ _ hx with h | h
        · cases h
        · rcases List.mem_flatMap.mp h with ⟨r, _, hxr⟩
          exact commentEvents_snd r x hxr
      rw [List.map_congr_left hvals, show (insertStream (emptyAcc r0.user).comments
          ((r0 :: rest).flatMap commentEventsOf)).map (fun x => x.1)
          = (insertStream (emptyAcc r0.user).comments ((r0 :: rest).flatMap commentEventsOf)).map
            Prod.fst from rfl, insertStream_keys]
      rw [show (emptyAcc r0.user).comments.map Prod.fst = ([] : List Nat) from rfl]
      rw [← hfil, commentEvents_keys]
      rfl
    · rw [he2, foldl_accAddRow_reactions]
      have hvals : ∀ x ∈ insertStream (emptyAcc r0.user).reactions
          ((r0 :: rest).flatMap reactionEventsOf), x.2.id = x.1 := by
        intro x hx
        rcases insertStream_mem _ _ _ hx with h | h
        · cases h
        · rcases List.mem_flatMap.mp h with ⟨r, _, hxr⟩
          exact reactionEvents_snd r x hxr
      rw [List.map_congr_left hvals, show (insertStream (emptyAcc r0.user).reactions
          ((r0 :: rest).flatMap reactionEventsOf)).map (fun x => x.1)
          = (insertStream (emptyAcc r0.user).reactions ((r0 :: rest).flatMap reactionEventsOf)).map
            Prod.fst from rfl, insertStream_keys]
      rw [show (emptyAcc r0.user).reactions.map Prod.fst = ([] : List Nat) from rfl]
      rw [← hfil, reactionEvents_keys]
      rfl
    · rw [he2, foldl_accAddRow_quests]
      have hvals : ∀ x ∈ insertStream (emptyAcc r0.user).quests
          ((r0 :: rest).flatMap questEventsOf), x.2.id = x.1.1 := by
        intro x hx
        rcases insertStream_mem _ _ _ hx with h | h
        · cases h
        · rcases List.mem_flatMap.mp h with ⟨r, _, hxr⟩
          exact questEvents_snd r x hxr
      rw [List.map_congr_left hvals]
      have hmm : (insertStream (emptyAcc r0.user).quests ((r0 :: rest).flatMap questEventsOf)).map
            (fun x => x.1.1)
          = ((insertStream (emptyAcc r0.user).quests ((r0 :: rest).flatMap questEventsOf)).map
              Prod.fst).map Prod.fst := by
        rw [List.map_map]
        rfl
      rw [hmm, insertStream_keys]
      rw [show (emptyAcc r0.user).quests.map Prod.fst = ([] : List (Nat × Nat)) from rfl]
      rw [← hfil, questEvents_keys]
      rw [show ([] : List (Nat × Nat)) = ([] : List Nat).map (fun i => (i, e.1)) from rfl,
        faoFold_map_pair, map_pair_fst]
      rfl

end LevelUpLife

namespace LevelUpLife

/-! ### C4 and C1: ordering and per-pair uniqueness of the batch views -/

theorem views_ids (rows : List BatchRow) :
    (construct_user_views rows).map (fun v => v.id)
      = firstAppearanceOrder (rows.map (fun r => r.user.id)) := by
  have hids : (construct_user_views rows).map (fun v => v.id)
      = (rows.foldl processRow []).map Prod.fst := by
    unfold construct_user_views
    rw [List.map_map]
    apply List.map_congr_left
    intro e he
    exact (final_entry_spec rows e he).1
  rw [hids, processRows_keys]
  rfl

theorem view_items_ids (rows : List BatchRow) (v : UserView)
    (hv : v ∈ construct_user_views rows) :
    v.items.map (fun x => x.id) = firstAppearanceOrder (specItemKeys rows v.id) := by
  unfold construct_user_views at hv
  rcases List.mem_map.mp hv with ⟨e, he, rfl⟩
  obtain ⟨h1, h2, -, -, -, -, -⟩ := final_entry_spec rows e he
  simp only [viewOfAcc, List.map_map]
  rw [h1]
  exact h2

theorem filter_key_singleton {α β : Type} [DecidableEq β] (l : List α) (f : α → β) (b : β)
    (hnd : (l.map f).Nodup) (hb : b ∈ l.map f) :
    ∃ a, l.filter (fun x => f x = b) = [a] ∧ a ∈ l ∧ f a = b := by
  induction l with
  | nil => simp at hb
  | cons x xs ih =>
    simp only [List.map_cons, List.nodup_cons] at hnd
    by_cases hx : f x = b
    · refine ⟨x, ?_, List.mem_cons_self _ _, hx⟩
      rw [List.filter_cons_of_pos (by simpa using hx)]
      have hnil : xs.filter (fun y => f y = b) = [] := by
        rw [List.filter_eq_nil_iff]
        intro a ha
        simp only [decide_eq_true_eq]
        intro hab
        exact hnd.1 ((hx.trans hab.symm) ▸ List.mem_map_of_mem f ha)
      rw [hnil]
    · rw [List.filter_cons_of_neg (by simpa using hx)]
      have hb2 : b ∈ xs.map f := by
        rcases List.mem_cons.mp (show b ∈ f x :: xs.map f by simpa using hb) with h | h
        · exact absurd h.symm hx
        · exact h
      obtain ⟨a, h1, h2, h3⟩ := ih hnd.2 hb2
      exact ⟨a, h1, List.mem_cons_of_mem _ h2, h3⟩

/-- C4: `_construct_user_views` lists one view per person in order of first
appearance of the person id, and inside each view every one of the six
child collections lists its entries in first-occurrence order of the dedup
keys among that person's tuples. -/
theorem construct_user_views_ordering (rows : List BatchRow) :
    (construct_user_views rows).map (fun v => v.id)
        = firstAppearanceOrder (rows.map (fun r => r.user.id))
    ∧ (construct_user_views rows).map (fun v => v.items.map (fun x => x.id))
        = ((construct_user_views rows).map (fun v => v.id)).map
            (fun p => firstAppearanceOrder (specItemKeys rows p))
    ∧ (construct_user_views rows).map (fun v => v.tasks.map (fun x => x.id))
        = ((construct_user_views rows).map (fun v => v.id)).map
            (fun p => firstAppearanceOrder (specTaskKeys rows p))
    ∧ (construct_user_views rows).map (fun v => v.ratings.map (fun x => x.id))
        = ((construct_user_views rows).map (fun v => v.id)).map
            (fun p => firstAppearanceOrder (specRatingKeys rows p))
    ∧ (construct_user_views rows).map (fun v => v.comments.map (fun x => x.id))
        = ((construct_user_views rows).map (fun v => v.id)).map
            (fun p => firstAppearanceOrder (specCommentKeys rows p))
    ∧ (construct_user_views rows).map (fun v => v.reactions.map (fun x => x.id))
        = ((construct_user_views rows).map (fun v => v.id)).map
            (fun p => firstAppearanceOrder (specReactionKeys rows p))
    ∧ (construct_user_views rows).map (fun v => v.quests.map (fun x => x.id))
        = ((construct_user_views rows).map (fun v => v.id)).map
            (fun p => firstAppearanceOrder (specQuestKeys rows p)) := by
  have hids : (construct_user_views rows).map (fun v => v.id)
      = (rows.foldl processRow []).map Prod.fst := by
    unfold construct_user_views
    rw [List.map_map]
    apply List.map_congr_left
    intro e he
    exact (final_entry_spec rows e he).1
  refine ⟨views_ids rows, ?_, ?_, ?_, ?_, ?_, ?_⟩
  · rw [hids, List.map_map]
    unfold construct_user_views
    rw [List.map_map]
    apply List.map_congr_left
    intro e he
    obtain ⟨-, h2, -, -, -, -, -⟩ := final_entry_spec rows e he
    simp only [Function.comp, viewOfAcc, List.map_map]
    exact h2
  · rw [hids, List.map_map]
    unfold construct_user_views
    rw [List.map_map]
    apply List.map_congr_left
    intro e he
    obtain ⟨-, -, h2, -, -, -, -⟩ := final_entry_spec rows e he
    simp only [Function.comp, viewOfAcc, List.map_map]
    exact h2
  · rw [hids, List.map_map]
    unfold construct_user_views
    rw [List.map_map]
    apply List.map_congr_left
    intro e he
    obtain ⟨-, -, -, h2, -, -, -⟩ := final_entry_spec rows e he
    simp only [Function.comp, viewOfAcc, List.map_map]
    exact h2
  · rw [hids, List.map_map]
    unfold construct_user_views
    rw [List.map_map]
    apply List.map_congr_left
    intro e he
    obtain ⟨-, -, -, -, h2, -, -⟩ := final_entry_spec rows e he
    simp only [Function.comp, viewOfAcc, List.map_map]
    exact h2
  · rw [hids, List.map_map]
    unfold construct_user_views
    rw [List.map_map]
    apply List.map_congr_left
    intro e he
    obtain ⟨-, -, -, -, -, h2, -⟩ := final_entry_spec rows e he
    simp only [Function.comp, viewOfAcc, List.map_map]
    exact h2
  · rw [hids, List.map_map]
    unfold construct_user_views
    rw [List.map_map]
    apply List.map_congr_left
    intro e he
    obtain ⟨-, -, -, -, -, -, h2⟩ := final_entry_spec rows e he
    simp only [Function.comp, viewOfAcc, List.map_map]
    exact h2

/-- C1: for every (person id, item id) pair carried by at least one input
tuple with non-null link and item, the batch output has exactly one view
for that person, and that view has exactly one item entry with that item
id, however often the pair recurs in the input. -/
theorem construct_user_views_pair_unique (rows : List BatchRow) (p i : Nat)
    (h : ∃ r ∈ rows, r.user.id = p ∧ r.user_item_link.isSome = true
      ∧ r.item.map Item.id = some i) :
    ((construct_user_views rows).filter (fun v => v.id = p)).length = 1
    ∧ (((construct_user_views rows).filter (fun v => v.id = p)).flatMap
        (fun v => v.items.filter (fun x => x.id = i))).length = 1 := by
  obtain ⟨r, hr, hrp, hlink, hitem⟩ := h
  have hnd : ((construct_user_views rows).map (fun v => v.id)).Nodup := by
    rw [views_ids]
    exact faoFold_nodup _ [] List.nodup_nil
  have hpmem : p ∈ (construct_user_views rows).map (fun v => v.id) := by
    rw [views_ids]
    exact (mem_faoFold _ [] p).mpr (Or.inr (hrp ▸ List.mem_map_of_mem _ hr))
  obtain ⟨v, hveq, hvmem, hvid⟩ :=
    filter_key_singleton (construct_user_views rows) (fun v => v.id) p hnd hpmem
  have hveq2 : (construct_user_views rows).filter (fun v => v.id = p) = [v] := hveq
  refine ⟨by rw [hveq2]; rfl, ?_⟩
  rw [hveq2]
  simp only [List.flatMap_cons, List.flatMap_nil, List.append_nil]
  have hvitems : v.items.map (fun x => x.id) = firstAppearanceOrder (specItemKeys rows p) := by
    rw [view_items_ids rows v hvmem, hvid]
  have hnd2 : (v.items.map (fun x => x.id)).Nodup := by
    rw [hvitems]
    exact faoFold_nodup _ [] List.nodup_nil
  have himem : i ∈ v.items.map (fun x => x.id) := by
    rw [hvitems]
    refine (mem_faoFold _ [] i).mpr (Or.inr ?_)
    unfold specItemKeys
    refine List.mem_filterMap.mpr ⟨r, hr, ?_⟩
    rw [if_pos hrp]
    rcases Option.isSome_iff_exists.mp hlink with ⟨l, hl⟩
    cases hit : r.item with
    | none => rw [hit] at hitem; simp at hitem
    | some it =>
      rw [hl]
      rw [hit] at hitem
      simpa using hitem
  obtain ⟨iv, hiveq, hivmem, hivid⟩ :=
    filter_key_singleton v.items (fun x => x.id) i hnd2 himem
  have hiveq2 : v.items.filter (fun x => x.id = i) = [iv] := hiveq
  rw [hiveq2]
  rfl

/-- Witness for C1: `c1Rows` repeats the pair (person 1, item 7) in two
tuples; person 1 gets one view with one item entry of id 7. -/
theorem construct_user_views_pair_unique_witness :
    ((construct_user_views c1Rows).filter (fun v => v.id = 1)).length = 1
    ∧ (((construct_user_views c1Rows).filter (fun v => v.id = 1)).flatMap
        (fun v => v.items.filter (fun x => x.id = 7))).length = 1 :=
  construct_user_views_pair_unique c1Rows 1 7 (by decide)

end LevelUpLife

namespace LevelUpLife

/-! ### The single-entity join is never empty per user -/

theorem linkItemPairs_ne_nil (db : DB) (u : User) : linkItemPairs db u ≠ [] := by
  unfold linkItemPairs
  cases hfl : db.user_item_links.filter (fun l => l.user_id = u.id) with
  | nil => simp
  | cons a as =>
    cases hfi : db.items.filter (fun it => it.id = a.item_id) with
    | nil => simp [hfi]
    | cons b bs => simp [hfi]

theorem questLinkPairs_ne_nil (db : DB) (u : User) : questLinkPairs db u ≠ [] := by
  unfold questLinkPairs
  cases hfl : db.user_quest_links.filter (fun l => l.user_id = u.id) with
  | nil => simp
  | cons a as =>
    cases hfi : db.quests.filter (fun q => q.id = a.quest_id) with
    | nil => simp [hfi]
    | cons b bs => simp [hfi]

theorem joined_rows_single_ne_nil (db : DB) (u : User) : joined_rows_single db u ≠ [] := by
  unfold joined_rows_single
  cases hli : linkItemPairs db u with
  | nil => exact absurd hli (linkItemPairs_ne_nil db u)
  | cons x xs =>
    cases hq : questLinkPairs db u with
    | nil => exact absurd hq (questLinkPairs_ne_nil db u)
    | cons y ys => simp

theorem single_join_eq_nil_iff (db : DB) (pred : User → Bool) :
    single_join db pred = [] ↔ db.users.filter pred = [] := by
  unfold single_join
  constructor
  · intro h
    cases hf : db.users.filter pred with
    | nil => rfl
    | cons u us =>
      rw [hf] at h
      simp only [List.flatMap_cons] at h
      exact absurd (List.append_eq_nil.mp h).1 (joined_rows_single_ne_nil db u)
  · intro h
    rw [h]
    rfl

/-! ### C6: single-entity fetches fail with NotFound exactly on empty lookups -/

/-- C6: `get_user_by_id`, `get_user_by_username` and `get_user_by_email`
raise the `NotFound` variant matching their lookup field exactly when the
items+quests join returns zero rows, and
`get_user_by_username_with_password` fails with the bare singular-fetch
NotFound (`NoResultFound`) exactly when no Person row with that username
exists. -/
theorem fetch_not_found_iff (db : DB) (uid : Nat) (uname pname uemail : String) :
    (get_user_by_id db uid = .error (.userNotFound uid)
      ↔ single_join db (fun u => u.id = uid) = [])
    ∧ (get_user_by_username db uname = .error (.userUsernameNotFound uname)
      ↔ single_join db (fun u => u.username = uname) = [])
    ∧ (get_user_by_email db uemail = .error (.userEmailNotFound uemail)
      ↔ single_join db (fun u => u.email = uemail) = [])
    ∧ (get_user_by_username_with_password db pname = .error .noResultFound
      ↔ db.users.filter (fun u => u.username = pname) = []) := by
  refine ⟨⟨?_, ?_⟩, ⟨?_, ?_⟩, ⟨?_, ?_⟩, ⟨?_, ?_⟩⟩
  · intro h
    cases hrows : single_join db (fun u => u.id = uid) with
    | nil => rfl
    | cons r rest =>
      simp only [get_user_by_id, hrows] at h
      simp [construct_user_view] at h
  · intro h
    simp [get_user_by_id, h]
  · intro h
    cases hrows : single_join db (fun u => u.username = uname) with
    | nil => rfl
    | cons r rest =>
      simp only [get_user_by_username, hrows] at h
      simp [construct_user_view] at h
  · intro h
    simp [get_user_by_username, h]
  · intro h
    cases hrows : single_join db (fun u => u.email = uemail) with
    | nil => rfl
    | cons r rest =>
      simp only [get_user_by_email, hrows] at h
      simp [construct_user_view] at h
  · intro h
    simp [get_user_by_email, h]
  · intro h
    cases hf : db.users.filter (fun u => u.username = pname) with
    | nil => rfl
    | cons a as =>
      cases as with
      | nil => simp [get_user_by_username_with_password, hf] at h
      | cons b bs => simp [get_user_by_username_with_password, hf] at h
  · intro h
    simp [get_user_by_username_with_password, h]

end LevelUpLife

namespace LevelUpLife

/-! ### C7: equip fails on a missing link, sets the flag, and frames the rest -/

theorem mem_linkItemPairs_some (db : DB) (u : User) (l : UserItemLink) (it : Item)
    (h : (some l, some it) ∈ linkItemPairs db u) :
    l ∈ db.user_item_links ∧ l.user_id = u.id ∧ it.id = l.item_id := by
  unfold linkItemPairs at h
  cases hfl : db.user_item_links.filter (fun x => x.user_id = u.id) with
  | nil =>
    rw [hfl] at h
    simp at h
  | cons a as =>
    rw [hfl] at h
    simp only [List.mem_flatMap] at h
    obtain ⟨x, hx, hmem⟩ := h
    have hxf : x ∈ db.user_item_links.filter (fun y => y.user_id = u.id) := by
      rw [hfl]; exact hx
    have hx1 : x ∈ db.user_item_links := List.mem_of_mem_filter hxf
    have hx2 : x.user_id = u.id := by simpa using List.of_mem_filter hxf
    cases hfi : db.items.filter (fun i2 => i2.id = x.item_id) with
    | nil =>
      rw [hfi] at hmem
      simp at hmem
    | cons b bs =>
      rw [hfi] at hmem
      simp only [List.mem_map] at hmem
      obtain ⟨c, hc, hcx⟩ := hmem
      have hlx : x = l ∧ c = it := by
        constructor <;> [exact Option.some.inj (congrArg Prod.fst hcx);
          exact Option.some.inj (congrArg Prod.snd hcx)]
      obtain ⟨rfl, rfl⟩ := hlx
      have hcf : c ∈ db.items.filter (fun i2 => i2.id = x.item_id) := by
        rw [hfi]; exact hc
      exact ⟨hx1, hx2, by simpa using List.of_mem_filter hcf⟩

theorem mem_single_join (db : DB) (pred : User → Bool) (r : SingleRow)
    (h : r ∈ single_join db pred) :
    r.user ∈ db.users ∧ pred r.user = true
    ∧ (r.user_item_link, r.item) ∈ linkItemPairs db r.user := by
  unfold single_join joined_rows_single at h
  rcases List.mem_flatMap.mp h with ⟨u, hu, hru⟩
  rcases List.mem_flatMap.mp hru with ⟨li, hli, hr2⟩
  rcases List.mem_map.mp hr2 with ⟨qp, hqp, rfl⟩
  exact ⟨List.mem_of_mem_filter hu, List.of_mem_filter hu, hli⟩

theorem mem_construct_items (rows : List SingleRow) (v : UserView) (iv : ItemUserView)
    (hv : construct_user_view rows = some v) (hm : iv ∈ v.items) :
    ∃ r ∈ rows, ∃ l it, r.user_item_link = some l ∧ r.item = some it
      ∧ iv = ⟨it.id, it.name, l.equipped⟩ := by
  cases rows with
  | nil => simp [construct_user_view] at hv
  | cons r0 rest =>
    simp only [construct_user_view, Option.some.injEq] at hv
    subst hv
    rcases List.mem_filterMap.mp hm with ⟨r, hr, hfr⟩
    refine ⟨r, hr, ?_⟩
    cases hl : r.user_item_link with
    | none =>
      rw [hl] at hfr
      cases hit : r.item <;> rw [hit] at hfr <;> simp at hfr
    | some l =>
      cases hit : r.item with
      | none =>
        rw [hl, hit] at hfr
        simp at hfr
      | some it =>
        rw [hl, hit] at hfr
        simp only [Option.some.injEq] at hfr
        exact ⟨l, it, rfl, rfl, hfr.symm⟩

/-- C7: on an existing Person, equipping a non-existent link fails with the
item-link NotFound error; on success, every item entry of the returned view
with the requested item id carries the requested equipped flag, and every
other possession link of that person is unchanged in the resulting state. -/
theorem equip_item_spec (db : DB) (uid iid : Nat) (e : Bool) :
    ((db.users.filter (fun u => u.id = uid)).length = 1 →
      db.user_item_links.filter (fun l => l.user_id = uid ∧ l.item_id = iid) = [] →
      equip_item_to_user db uid iid e = .error (.itemLinkToUserNotFound iid))
    ∧ (∀ db2 v, equip_item_to_user db uid iid e = .ok (db2, v) →
        (∀ iv ∈ v.items, iv.id = iid → iv.equipped = e)
        ∧ (∀ l ∈ db.user_item_links, l.user_id = uid → l.item_id ≠ iid →
            l ∈ db2.user_item_links)) := by
  constructor
  · intro h1 h2
    obtain ⟨u0, hu0⟩ := List.length_eq_one.mp h1
    unfold equip_item_to_user
    rw [hu0, h2]
  · intro db2 v hok
    unfold equip_item_to_user at hok
    split at hok
    · exact absurd hok (by simp)
    · exact absurd hok (by simp)
    · split at hok
      · exact absurd hok (by simp)
      · exact absurd hok (by simp)
      · dsimp only [] at hok
        split at hok
        next v2 heq =>
          simp only [Except.ok.injEq, Prod.mk.injEq] at hok
          obtain ⟨hdb2, hv⟩ := hok
          subst hdb2
          subst hv
          constructor
          · intro iv hiv hivid
            simp only [get_user_by_id] at heq
            split at heq
            · exact absurd heq (by simp)
            · split at heq
              next v3 hcv =>
                have hv32 : v3 = v2 := by simpa using heq
                subst hv32
                obtain ⟨r, hrmem, l, it, hl, hit, hive⟩ :=
                  mem_construct_items _ _ iv hcv hiv
                obtain ⟨hu, hpred, hpair⟩ := mem_single_join _ _ r hrmem
                rw [hl, hit] at hpair
                obtain ⟨hlmem, hluid, hitid⟩ := mem_linkItemPairs_some _ _ l it hpair
                have huid : r.user.id = uid := by simpa using hpred
                rcases List.mem_map.mp hlmem with ⟨l0, hl0, hgl⟩
                by_cases hcond : l0.user_id = uid ∧ l0.item_id = iid
                · rw [if_pos hcond] at hgl
                  rw [hive, ← hgl]
                · exfalso
                  rw [if_neg hcond] at hgl
                  subst hgl
                  refine hcond ⟨hluid.trans huid, ?_⟩
                  rw [← hitid]
                  rw [hive] at hivid
                  exact hivid
              next hcv => exact absurd heq (by simp)
          · intro l hl hluid hlitem
            refine List.mem_map.mpr ⟨l, hl, ?_⟩
            rw [if_neg (fun hc => hlitem hc.2)]
        next err heq => exact absurd hok (by simp)

/-- Witness for C7: in `dbA` person 1 has no link to item 2, so equipping
fails with `LinkNotFound`; in `dbB` equipping item 2 succeeds and leaves the
link to item 3 unchanged. -/
theorem equip_item_spec_witness :
    equip_item_to_user dbA 1 2 true = .error (.itemLinkToUserNotFound 2)
    ∧ ({ user_id := 1, item_id := 3, equipped := false } : UserItemLink)
        ∈ dbB2.user_item_links :=
  ⟨(equip_item_spec dbA 1 2 true).1 (by decide) (by decide),
   ((equip_item_spec dbB 1 2 true).2 dbB2 vB (by rfl)).2
     ⟨1, 3, false⟩ (by decide) (by decide) (by decide)⟩

end LevelUpLife

namespace LevelUpLife

/-! ### C9: the password update stores the string verbatim -/

/-- C9: on success, `update_user_password` persists the provided string
itself as the Person's password, with no hashing step, whereas `create_user`
persists `hash` applied to the requested password. -/
theorem update_user_password_stores_verbatim (db : DB) (uid : Nat) (pw : String) :
    (∀ db2 v, update_user_password db uid pw = .ok (db2, v) →
      ∀ u ∈ db2.users, u.id = uid → u.password = pw)
    ∧ (∀ (hash : String → String) (new_id : Nat) (uc : UserCreate) (u : User) (db2 : DB),
        create_user hash new_id .ok db uc = .ok (some u, db2) →
          u.password = hash uc.password) := by
  constructor
  · intro db2 v hok
    simp only [update_user_password] at hok
    split at hok
    · exact absurd hok (by simp)
    · exact absurd hok (by simp)
    · split at hok
      next v3 hcv =>
        simp only [Except.ok.injEq, Prod.mk.injEq] at hok
        obtain ⟨hdb2, hv⟩ := hok
        subst hdb2
        intro u hu huid
        rcases List.mem_map.mp hu with ⟨u0, hu0, hgu⟩
        by_cases hcond : u0.id = uid
        · rw [if_pos hcond] at hgu
          rw [← hgu]
        · rw [if_neg hcond] at hgu
          exact absurd (hgu ▸ huid) hcond
      next hcv => exact absurd hok (by simp)
  · intro hash nid uc u db2 hok
    simp only [create_user] at hok
    simp only [Except.ok.injEq, Prod.mk.injEq, Option.some.injEq] at hok
    obtain ⟨hu, hdb⟩ := hok
    rw [← hu]

/-- Witness for C9: updating person 1's password in `c9DB` to "new" stores
"new" verbatim; creating a user with password "p" under the hash
`s ++ "h"` stores "ph". -/
theorem update_user_password_stores_verbatim_witness :
    ({ mkUser 1 "a" "a@x" with password := "new" } : User).password = "new"
    ∧ u9b.password = (fun s => s ++ "h") "p" :=
  ⟨(update_user_password_stores_verbatim c9DB 1 "new").1 c9DB2 v9 (by rfl)
      { mkUser 1 "a" "a@x" with password := "new" } (by decide) (by decide),
   (update_user_password_stores_verbatim c9DB 1 "new").2 (fun s => s ++ "h") 2
      ⟨"b", "eb", "p", .OTHER⟩ u9b c9DBb (by rfl)⟩

/-! ### C10: offset and limit act on flat joined rows, not persons -/

/-- C10: `get_users` consumes at most `limit` flat joined rows (offset and
limit are applied before aggregation); in `dbC` (one person, two items) a
limit of 1 truncates the person's item collection to one entry while the
two-row page has both; in `dbD` (two persons, the first spanning two rows)
a page of limit 2 returns one view although two persons exist, fewer than
`min limit persons`. -/
theorem get_users_row_pagination :
    (∀ (db : DB) (offset limit : Nat), (page_rows db offset limit).length ≤ limit)
    ∧ (get_users dbC 0 1).map (fun v => v.items.length) = [1]
    ∧ (get_users dbC 0 2).map (fun v => v.items.length) = [2]
    ∧ (get_users dbD 0 2).length = 1
    ∧ (get_users dbD 0 2).length < min 2 dbD.users.length := by
  refine ⟨?_, ?_, ?_, ?_, ?_⟩
  · intro db o l
    unfold page_rows
    rw [List.length_take]
    exact Nat.min_le_left _ _
  · decide
  · decide
  · decide
  · decide

end LevelUpLife

namespace LevelUpLife

/-- Witness for C6 at a concrete input: the empty database makes every
lookup find nothing, so all four fetches fail with their NotFound kinds. -/
theorem fetch_not_found_iff_witness :
    get_user_by_id emptyDB 1 = .error (.userNotFound 1)
    ∧ get_user_by_username emptyDB "a" = .error (.userUsernameNotFound "a")
    ∧ get_user_by_email emptyDB "a@x" = .error (.userEmailNotFound "a@x")
    ∧ get_user_by_username_with_password emptyDB "a" = .error .noResultFound :=
  ⟨((fetch_not_found_iff emptyDB 1 "a" "a" "a@x").1).mpr rfl,
   ((fetch_not_found_iff emptyDB 1 "a" "a" "a@x").2.1).mpr rfl,
   ((fetch_not_found_iff emptyDB 1 "a" "a" "a@x").2.2.1).mpr rfl,
   ((fetch_not_found_iff emptyDB 1 "a" "a" "a@x").2.2.2).mpr rfl⟩

end LevelUpLife
